import Mathlib

/-
  Verification of the Stable-Fluids solver of the fluid-dynamics-simulation
  repository (src/unnamed/part_000, the tunable-parameter variant, and
  src/js/fluidSimulation.js, the fixed-0.99 variant).

  Shallow embedding conventions:
  * JavaScript numbers are modelled as rationals (ℚ); `Math.floor` is `Int.floor`.
  * A flat `Float32Array` of length N*N is modelled as a total function
    `Grid := Nat → ℚ`; the solver kernels only ever read and write indices
    below N*N for N ≥ 3 (the advection clamp theorem makes the in-bounds
    property explicit), so the total-function model agrees with the typed
    array on the whole domain the kernels touch.
  * `for` loops are modelled by counter recursion (`iterUp` runs a loop body
    at counter values 1..n in ascending order, `iterUp0` at 0..n-1), which is
    the exact iteration order of the JavaScript loops.
  * `Math.sqrt` (used only by addForce) is kept as an explicit function
    parameter `sq : ℚ → ℚ`, since its exact values are irrational; theorems
    assume of `sq` only facts true of the real square root.
-/

set_option maxRecDepth 10000

/- Batteries marks the rational-number operations `@[irreducible]`, which
blocks `decide` from evaluating concrete scenario computations; restore the
ordinary reducibility of those operations for this file. -/
set_option allowUnsafeReducibility true
attribute [local semireducible] Rat.add Rat.mul Rat.sub Rat.inv Rat.ofScientific

namespace Stam

/-- A flat simulation field: index ↦ stored rational value. -/
abbrev Grid := Nat → ℚ

/-- Write one cell of a field (JS `x[n] = v`). -/
def upd (f : Grid) (n : Nat) (v : ℚ) : Grid := Function.update f n v

/-- The 2D→1D index mapping of the source, `IX(x, y) = x + y * N`
(the `Math.floor` calls are the identity on the Nat coordinates used by the
kernels). -/
def IX (N i j : Nat) : Nat := i + j * N

/-- Run a loop body at counter values 1, 2, ..., n (ascending), the order of
the JS loops `for (let j = 1; j < N - 1; j++)` when `n = N - 2`. -/
def iterUp {α : Type} (step : α → Nat → α) (s : α) : Nat → α
  | 0 => s
  | k + 1 => step (iterUp step s k) (k + 1)

/-- Run a loop body at counter values 0, 1, ..., n-1 (ascending), the order of
the JS loops `for (let i = 0; i < n; i++)`. -/
def iterUp0 {α : Type} (step : α → Nat → α) (s : α) : Nat → α
  | 0 => s
  | k + 1 => step (iterUp0 step s k) k

/-- Inner loop of a double interior sweep: process cells (1,j)..(k,j) of row j
in ascending i order, writing cell (i,j) with `g f i j` where `f` is the
in-progress field (Gauss–Seidel style, exactly as the in-place JS loops). -/
def cellRow (N : Nat) (g : Grid → Nat → Nat → ℚ) (j : Nat) (f : Grid) : Nat → Grid
  | 0 => f
  | k + 1 =>
    let fp := cellRow N g j f k
    upd fp (IX N (k + 1) j) (g fp (k + 1) j)

/-- Outer loop of a double interior sweep: process rows 1..k, each row fully
(i = 1..N-2), in ascending j order. -/
def cellRows (N : Nat) (g : Grid → Nat → Nat → ℚ) (f : Grid) : Nat → Grid
  | 0 => f
  | k + 1 => cellRow N g (k + 1) (cellRows N g f k) (N - 2)

/-- One full interior sweep `for j = 1..N-2, for i = 1..N-2: x[IX(i,j)] = g x i j`,
operating in place (later cells see earlier writes), as in the source. -/
def cellPass (N : Nat) (g : Grid → Nat → Nat → ℚ) (f : Grid) : Grid :=
  cellRows N g f (N - 2)

/-- Body of the first loop of `setBoundary`: the two writes for column
boundaries at row j (left edge mirrors column 1, right edge mirrors column
N-2, sign-flipped exactly when b = 1). -/
def vStep (N b : Nat) (f : Grid) (j : Nat) : Grid :=
  let f1 := upd f (IX N 0 j) (if b = 1 then -(f (IX N 1 j)) else f (IX N 1 j))
  upd f1 (IX N (N - 1) j) (if b = 1 then -(f1 (IX N (N - 2) j)) else f1 (IX N (N - 2) j))

/-- Body of the second loop of `setBoundary`: the two writes for row
boundaries at column i (sign-flipped exactly when b = 2). -/
def hStep (N b : Nat) (f : Grid) (i : Nat) : Grid :=
  let f1 := upd f (IX N i 0) (if b = 2 then -(f (IX N i 1)) else f (IX N i 1))
  upd f1 (IX N i (N - 1)) (if b = 2 then -(f1 (IX N i (N - 2))) else f1 (IX N i (N - 2)))

/-- `setBoundary(b, x)` of the source: column boundaries for interior rows,
row boundaries for interior columns, then the four corner averages, in
source order. -/
def setBoundary (N b : Nat) (x : Grid) : Grid :=
  let x1 := iterUp (vStep N b) x (N - 2)
  let x2 := iterUp (hStep N b) x1 (N - 2)
  let x3 := upd x2 (IX N 0 0) ((1/2) * (x2 (IX N 1 0) + x2 (IX N 0 1)))
  let x4 := upd x3 (IX N 0 (N - 1)) ((1/2) * (x3 (IX N 1 (N - 1)) + x3 (IX N 0 (N - 2))))
  let x5 := upd x4 (IX N (N - 1) 0) ((1/2) * (x4 (IX N (N - 2) 0) + x4 (IX N (N - 1) 1)))
  upd x5 (IX N (N - 1) (N - 1)) ((1/2) * (x5 (IX N (N - 2) (N - 1)) + x5 (IX N (N - 1) (N - 2))))

/-- One in-place Gauss–Seidel sweep of the diffusion solve (the inner double
loop of `diffuse`). -/
def oneSweep (N : Nat) (a : ℚ) (x0 : Grid) (f : Grid) : Grid :=
  cellPass N (fun f i j =>
    (x0 (IX N i j) +
      a * (f (IX N (i + 1) j) + f (IX N (i - 1) j) +
           f (IX N i (j + 1)) + f (IX N i (j - 1)))) / (1 + 4 * a)) f

/-- `diffuse(b, x, x0, diffusion, dt)` of the source: exactly `it` sweeps,
each followed by `setBoundary`, with `a = dt * diffusion * (N-2)^2`. -/
def diffuse (N it b : Nat) (x x0 : Grid) (diffusion dt : ℚ) : Grid :=
  let a := dt * diffusion * ((N : ℚ) - 2) * ((N : ℚ) - 2)
  iterUp0 (fun f _ => setBoundary N b (oneSweep N a x0 f)) x it

/-- The discrete divergence formula of `project` at interior cell (i, j). -/
def divAt (N : Nat) (velocX velocY : Grid) (i j : Nat) : ℚ :=
  -(1/2) * ((velocX (IX N (i + 1) j) - velocX (IX N (i - 1) j)) +
            (velocY (IX N i (j + 1)) - velocY (IX N i (j - 1)))) / (N : ℚ)

/-- Result of `project`: the two corrected velocity fields and the final
contents of the two scratch buffers (pressure and divergence). -/
structure ProjResult where
  velX : Grid
  velY : Grid
  p : Grid
  div : Grid

/-- `project(velocX, velocY, p, div)` of the source.  The source writes
`div[IX(i,j)]` and `p[IX(i,j)] = 0` inside one double loop; since neither
formula reads `div` or `p`, writing the two buffers in two sweeps yields the
identical result cell for cell. -/
def project (N it : Nat) (velocX velocY p div : Grid) : ProjResult :=
  let div1 := cellPass N (fun _ i j => divAt N velocX velocY i j) div
  let p1 := cellPass N (fun _ _ _ => 0) p
  let div2 := setBoundary N 0 div1
  let p2 := setBoundary N 0 p1
  let p3 := iterUp0 (fun q _ => setBoundary N 0 (cellPass N (fun q i j =>
    (div2 (IX N i j) + q (IX N (i + 1) j) + q (IX N (i - 1) j) +
     q (IX N i (j + 1)) + q (IX N i (j - 1))) / 4) q)) p2 it
  let vx := cellPass N (fun w i j =>
    w (IX N i j) - (1/2) * (p3 (IX N (i + 1) j) - p3 (IX N (i - 1) j)) * (N : ℚ)) velocX
  let vy := cellPass N (fun w i j =>
    w (IX N i j) - (1/2) * (p3 (IX N i (j + 1)) - p3 (IX N i (j - 1))) * (N : ℚ)) velocY
  { velX := setBoundary N 1 vx, velY := setBoundary N 2 vy, p := p3, div := div2 }

/-- The two sequential clamp tests of `advect`:
`if (x < 0.5) x = 0.5; if (x > N - 1.5) x = N - 1.5;`. -/
def advClamp (N : Nat) (t : ℚ) : ℚ :=
  let t1 := if t < 1/2 then 1/2 else t
  if t1 > (N : ℚ) - 3/2 then (N : ℚ) - 3/2 else t1

/-- `advect(b, d, d0, velocX, velocY, dt)` of the source: semi-Lagrangian
backtrace with clamping and bilinear interpolation of `d0`, then one
`setBoundary`. -/
def advect (N b : Nat) (d d0 velocX velocY : Grid) (dt : ℚ) : Grid :=
  let d1 := cellPass N (fun _ i j =>
    let x := advClamp N ((i : ℚ) - dt * (N : ℚ) * velocX (IX N i j))
    let y := advClamp N ((j : ℚ) - dt * (N : ℚ) * velocY (IX N i j))
    let i0 := ⌊x⌋
    let i1 := i0 + 1
    let j0 := ⌊y⌋
    let j1 := j0 + 1
    let s1 := x - (i0 : ℚ)
    let s0 := 1 - s1
    let u1 := y - (j0 : ℚ)
    let u0 := 1 - u1
    s0 * (u0 * d0 (IX N i0.toNat j0.toNat) + u1 * d0 (IX N i0.toNat j1.toNat)) +
    s1 * (u0 * d0 (IX N i1.toNat j0.toNat) + u1 * d0 (IX N i1.toNat j1.toNat))) d
  setBoundary N b d1

/-- The dissipation loops `for (let i = 0; i < N * N; i++) x[i] *= k`. -/
def scaleField (N : Nat) (k : ℚ) (f : Grid) : Grid :=
  iterUp0 (fun f i => upd f i (f i * k)) f (N * N)

/-- The `params` object of the tunable variant (src/unnamed/part_000); the
fixed variant (src/js/fluidSimulation.js) has the same `dt`, `diffusion`,
`viscosity` and `iterations` fields and no dissipation parameters. -/
structure Params where
  dt : ℚ
  diffusion : ℚ
  viscosity : ℚ
  iterations : Nat
  densityDissipation : ℚ
  velocityDissipation : ℚ
  forceMultiplier : ℚ
  forceRadius : ℚ

/-- The simulation state: grid side length, parameters and the six field
arrays. -/
structure FluidSim where
  size : Nat
  params : Params
  u : Grid
  v : Grid
  u_prev : Grid
  v_prev : Grid
  density : Grid
  density_prev : Grid

/-- `velocityStep()` of the tunable variant.  The source mutates arrays in
place and reuses `u`/`v` as the pressure/divergence scratch buffers of the
first `project` and `u_prev`/`v_prev` as those of the second; the lets below
track exactly which array holds which contents at each point. -/
def velocityStep (s : FluidSim) : FluidSim :=
  let N := s.size
  let visc := s.params.viscosity
  let dt := s.params.dt
  let it := s.params.iterations
  let uP := diffuse N it 1 s.u_prev s.u visc dt
  let vP := diffuse N it 2 s.v_prev s.v visc dt
  let pr1 := project N it uP vP s.u s.v
  let u1 := advect N 1 pr1.p pr1.velX pr1.velX pr1.velY dt
  let v1 := advect N 2 pr1.div pr1.velY pr1.velX pr1.velY dt
  let pr2 := project N it u1 v1 pr1.velX pr1.velY
  let diss := s.params.velocityDissipation
  { s with
    u := scaleField N diss pr2.velX
    v := scaleField N diss pr2.velY
    u_prev := pr2.p
    v_prev := pr2.div }

/-- The diffusion stage of `densityStep()` (`this.diffuse(0, density_prev,
density, diffusion, dt)`), identical in both variants. -/
def densityDiffStage (s : FluidSim) : Grid :=
  diffuse s.size s.params.iterations 0 s.density_prev s.density s.params.diffusion s.params.dt

/-- The advection stage of `densityStep()` (`this.advect(0, density,
density_prev, u, v, dt)`), identical in both variants. -/
def densityAdvStage (s : FluidSim) : Grid :=
  advect s.size 0 s.density (densityDiffStage s) s.u s.v s.params.dt

/-- `densityStep()` of the tunable variant: diffuse, advect, then multiply
every cell by `densityDissipation`. -/
def densityStep (s : FluidSim) : FluidSim :=
  { s with
    density := scaleField s.size s.params.densityDissipation (densityAdvStage s)
    density_prev := densityDiffStage s }

/-- `update()` of the tunable variant: velocity step then density step (the
texture refresh is rendering-layer work outside the solver core). -/
def update (s : FluidSim) : FluidSim := densityStep (velocityStep s)

/-- `velocityStep()` of the fixed variant (src/js/fluidSimulation.js):
identical pipeline but with no velocity dissipation stage. -/
def velocityStepFixed (s : FluidSim) : FluidSim :=
  let N := s.size
  let visc := s.params.viscosity
  let dt := s.params.dt
  let it := s.params.iterations
  let uP := diffuse N it 1 s.u_prev s.u visc dt
  let vP := diffuse N it 2 s.v_prev s.v visc dt
  let pr1 := project N it uP vP s.u s.v
  let u1 := advect N 1 pr1.p pr1.velX pr1.velX pr1.velY dt
  let v1 := advect N 2 pr1.div pr1.velY pr1.velX pr1.velY dt
  let pr2 := project N it u1 v1 pr1.velX pr1.velY
  { s with u := pr2.velX, v := pr2.velY, u_prev := pr2.p, v_prev := pr2.div }

/-- `densityStep()` of the fixed variant: the dissipation loop uses the
literal constant `0.99`. -/
def densityStepFixed (s : FluidSim) : FluidSim :=
  { s with
    density := scaleField s.size (99/100) (densityAdvStage s)
    density_prev := densityDiffStage s }

/-- `update()` of the fixed variant. -/
def updateFixed (s : FluidSim) : FluidSim := densityStepFixed (velocityStepFixed s)

/-- Grid coordinate of a pointer position: `Math.floor(((c + winDim / 2) /
winDim) * N)` where `winDim` is the window extent in that axis. -/
def gridCoord (winDim c : ℚ) (N : Nat) : ℤ := ⌊(c + winDim / 2) / winDim * (N : ℚ)⌋

/-- Number of iterations of the JS loop `for (let i = -r; i <= r; i++)`
(whose counter takes the values `-r + k`, k = 0, 1, ...; for fractional `r`
the counter values are fractional too). -/
def offCount (r : ℚ) : Nat := if r < 0 then 0 else (⌊2 * r⌋).toNat + 1

/-- Value of the offset-loop counter at iteration k: `-r + k`. -/
def offVal (r : ℚ) (k : Nat) : ℚ := -r + (k : ℚ)

/-- Body of the `addForce` double loop at offsets (i, j): disc test with the
distance `sq(i² + j²)` (`sq` standing for `Math.sqrt`), linear-falloff
influence, coordinate clamping to [0, N-1], and the three `+=` writes.  The
index guard replicates the typed array's silent dropping of out-of-range
writes (never taken once the clamped coordinates are in range). -/
def forceBody (sq : ℚ → ℚ) (gX gY : ℤ) (aX aY : ℚ) (s : FluidSim) (i j : ℚ) : FluidSim :=
  let N := s.size
  let r := s.params.forceRadius
  let d := sq (i * i + j * j)
  if r < d then s else
    let influence := 1 - d / r
    let px := min ((N : ℚ) - 1) (max 0 ((gX : ℚ) + i))
    let py := min ((N : ℚ) - 1) (max 0 ((gY : ℚ) + j))
    let idx : ℤ := ⌊px⌋ + ⌊py⌋ * (N : ℤ)
    if 0 ≤ idx ∧ idx < (N : ℤ) * (N : ℤ) then
      { s with
        u := upd s.u idx.toNat (s.u idx.toNat + aX * influence)
        v := upd s.v idx.toNat (s.v idx.toNat + aY * influence)
        density := upd s.density idx.toNat (s.density idx.toNat + 100 * influence) }
    else s

/-- `addForce(x, y, amountX, amountY)` of the tunable variant.  `winW`/`winH`
are the window dimensions the source reads from its environment, and `sq`
stands for `Math.sqrt`. -/
def addForce (s : FluidSim) (sq : ℚ → ℚ) (winW winH x y amountX amountY : ℚ) : FluidSim :=
  let gX := gridCoord winW x s.size
  let gY := gridCoord winH y s.size
  let aX := amountX * s.params.forceMultiplier
  let aY := amountY * s.params.forceMultiplier
  let r := s.params.forceRadius
  iterUp0 (fun s1 ki =>
    iterUp0 (fun s2 kj => forceBody sq gX gY aX aY s2 (offVal r ki) (offVal r kj))
      s1 (offCount r)) s (offCount r)

/-- A computable rational stand-in for `Math.sqrt`, used only to instantiate
concrete scenarios.  It is exact at the perfect squares 0, 1 and 4 and,
on every argument of the form i² + j² with integer |i|, |j| ≤ 2, it makes
the comparisons against a radius of 2 come out exactly as the real square
root does. -/
def mySq (t : ℚ) : ℚ :=
  if t = 0 then 0 else if t = 1 then 1 else if t = 2 then 3/2
  else if t = 4 then 2 else if t = 5 then 9/4 else if t = 8 then 17/6 else t

/-- `reset()`: zero all six arrays, then sparsely seed the density array
(`if (Math.random() < 0.001) density[i] = Math.random() * 50 + 50`).  The
two uses of the random generator are modelled by the oracle functions
`coin` (whether cell i is seeded) and `val` (the random draw in [0, 1)). -/
def reset (s : FluidSim) (coin : Nat → Bool) (val : Nat → ℚ) : FluidSim :=
  { s with
    u := fun _ => 0
    v := fun _ => 0
    u_prev := fun _ => 0
    v_prev := fun _ => 0
    density := fun n => if n < s.size * s.size ∧ coin n then val n * 50 + 50 else 0
    density_prev := fun _ => 0 }

/-- The default parameter values the constructor of the tunable variant
installs (forceRadius is `size / 20`). -/
def defaultParams (size : Nat) : Params :=
  { dt := 1/10, diffusion := 1/10000, viscosity := 1/1000000, iterations := 4
    densityDissipation := 99/100, velocityDissipation := 99/100
    forceMultiplier := 10, forceRadius := (size : ℚ) / 20 }

/-- The constructor `new FluidSimulation(size, scene)`: record the size,
install the default parameters, and `reset()` the fields.  There is no
validation of `size` anywhere on this path (the `scene`/visualization
argument belongs to the rendering layer outside the solver core). -/
def create (size : Nat) (coin : Nat → Bool) (val : Nat → ℚ) : FluidSim :=
  reset
    { size := size, params := defaultParams size
      u := fun _ => 0, v := fun _ => 0, u_prev := fun _ => 0, v_prev := fun _ => 0
      density := fun _ => 0, density_prev := fun _ => 0 } coin val

/-- List of interior coordinate pairs, used only to state summed metrics. -/
def interiorCells (N : Nat) : List (Nat × Nat) :=
  (List.range' 1 (N - 2)).flatMap (fun j => (List.range' 1 (N - 2)).map (fun i => (i, j)))

/-- Total magnitude (sum of absolute values) of the discrete divergence over
the interior cells, computed with the exact formula `project` uses. -/
def divMagnitude (N : Nat) (velocX velocY : Grid) : ℚ :=
  ((interiorCells N).map (fun c => |divAt N velocX velocY c.1 c.2|)).sum

/-- Total density over all N·N cells. -/
def totalDensity (N : Nat) (f : Grid) : ℚ :=
  ((List.range (N * N)).map f).sum

/-! Concrete fixture grids and states used by witnesses and counterexamples. -/

/-- The all-zero grid. -/
def wZero : Grid := fun _ => 0

/-- A concrete fixture grid used by witness instantiations. -/
def wGrid : Grid := fun n => (n : ℚ)

/-- A fixture velocity field with a huge magnitude. -/
def wHuge : Grid := fun _ => 123456789

/-- A fixture velocity field with a huge negative magnitude. -/
def wHugeNeg : Grid := fun _ => -123456789

/-- The constant-one grid. -/
def wOne : Grid := fun _ => 1

/-- Concrete N = 3 state for the C5 counterexample: zero velocity everywhere,
density 1 at the single interior cell (1,1), dissipation 99/100 ≤ 1,
iterations 1, diffusion and viscosity 0. -/
def cexC5 : FluidSim :=
  { size := 3
    params := { dt := 1/10, diffusion := 0, viscosity := 0, iterations := 1
                densityDissipation := 99/100, velocityDissipation := 99/100
                forceMultiplier := 10, forceRadius := 2 }
    u := wZero, v := wZero, u_prev := wZero, v_prev := wZero
    density := fun n => if n = IX 3 1 1 then 1 else 0, density_prev := wZero }

/-- Concrete N = 3 state for the C8 counterexample: both dissipation
parameters set to 99/100 as the claim prescribes, u ≡ 1. -/
def cexC8 : FluidSim :=
  { size := 3
    params := { dt := 1/10, diffusion := 0, viscosity := 0, iterations := 1
                densityDissipation := 99/100, velocityDissipation := 99/100
                forceMultiplier := 10, forceRadius := 2 }
    u := wOne, v := wZero, u_prev := wZero, v_prev := wZero
    density := wZero, density_prev := wZero }

/-- Concrete state for the C8 amended theorem's witness: velocity
dissipation 1, density dissipation 99/100. -/
def wC8 : FluidSim :=
  { size := 3
    params := { dt := 1/10, diffusion := 0, viscosity := 0, iterations := 1
                densityDissipation := 99/100, velocityDissipation := 1
                forceMultiplier := 10, forceRadius := 2 }
    u := wOne, v := wZero, u_prev := wZero, v_prev := wZero
    density := wZero, density_prev := wZero }

/-- Divergence-free non-zero x-velocity input for the C6 counterexample:
the constant field 1. -/
def cexC6u : Grid := wOne

/-- Divergent x-velocity input for the C6 amended theorem: a single 1 at
cell (2, 1) of the 3×3 grid. -/
def cexC6v : Grid := fun n => if n = IX 3 2 1 then 1 else 0

/-- Concrete N = 10 state for the C7 counterexample: all fields zero,
forceRadius 2, forceMultiplier 10 (the constructor defaults for this
radius would be 1/2; the radius is host-configurable). -/
def cexC7 : FluidSim :=
  { size := 10
    params := { dt := 1/10, diffusion := 0, viscosity := 0, iterations := 1
                densityDissipation := 99/100, velocityDissipation := 99/100
                forceMultiplier := 10, forceRadius := 2 }
    u := wZero, v := wZero, u_prev := wZero, v_prev := wZero
    density := wZero, density_prev := wZero }

/-- Like `cexC7` but with forceRadius 1 (used by the C7 counterexample). -/
def cexC7r1 : FluidSim :=
  { size := 10
    params := { dt := 1/10, diffusion := 0, viscosity := 0, iterations := 1
                densityDissipation := 99/100, velocityDissipation := 99/100
                forceMultiplier := 10, forceRadius := 1 }
    u := wZero, v := wZero, u_prev := wZero, v_prev := wZero
    density := wZero, density_prev := wZero }

/-- Like `cexC7` but with the fractional forceRadius 6/5, showing that a
non-integer radius defeats locality even for an in-grid center. -/
def cexC7frac : FluidSim :=
  { size := 10
    params := { dt := 1/10, diffusion := 0, viscosity := 0, iterations := 1
                densityDissipation := 99/100, velocityDissipation := 99/100
                forceMultiplier := 10, forceRadius := 6/5 }
    u := wZero, v := wZero, u_prev := wZero, v_prev := wZero
    density := wZero, density_prev := wZero }

/-! Basic facts about cell writes and the index mapping. -/

theorem upd_self (f : Grid) (n : Nat) (v : ℚ) : upd f n v n = v := by
  unfold upd
  exact Function.update_same n v f

theorem upd_other {m n : Nat} (h : m ≠ n) (f : Grid) (v : ℚ) : upd f n v m = f m := by
  unfold upd
  exact Function.update_noteq h v f

theorem IX_lt {N i j : Nat} (hi : i < N) (hj : j < N) : IX N i j < N * N := by
  have h1 : j * N ≤ (N - 1) * N := Nat.mul_le_mul_right N (by omega)
  have h2 : (N - 1) * N = N * N - N := by
    rw [Nat.sub_mul, Nat.one_mul]
  have h3 : N * 1 ≤ N * N := Nat.mul_le_mul_left N (by omega)
  simp only [Nat.mul_one] at h3
  simp only [IX]
  omega

theorem IX_inj {N i i2 j j2 : Nat} (hi : i < N) (hi2 : i2 < N)
    (h : IX N i j = IX N i2 j2) : i = i2 ∧ j = j2 := by
  simp only [IX] at h
  have hmod : (i + j * N) % N = (i2 + j2 * N) % N := by rw [h]
  rw [Nat.add_mul_mod_self_right, Nat.add_mul_mod_self_right,
    Nat.mod_eq_of_lt hi, Nat.mod_eq_of_lt hi2] at hmod
  subst hmod
  refine ⟨rfl, ?_⟩
  have : j * N = j2 * N := by omega
  exact Nat.eq_of_mul_eq_mul_right (by omega) this

theorem IX_ne {N i i2 j j2 : Nat} (hi : i < N) (hi2 : i2 < N)
    (h : i ≠ i2 ∨ j ≠ j2) : IX N i j ≠ IX N i2 j2 := by
  intro he
  rcases IX_inj hi hi2 he with ⟨h1, h2⟩
  rcases h with h | h
  · exact h h1
  · exact h h2

/-! Pointwise description of `setBoundary`.  The two boundary loops write
only edge cells and read only the two adjacent interior columns / rows,
which they never write; the corner writes read only edge cells that no
later corner write touches.  The lemmas below make that exact. -/

theorem vStep_other (N b : Nat) (f : Grid) (j : Nat) {n : Nat}
    (h1 : n ≠ IX N 0 j) (h2 : n ≠ IX N (N - 1) j) : vStep N b f j n = f n := by
  simp only [vStep]
  rw [upd_other h2, upd_other h1]

theorem vStep_left (N b : Nat) (hN : 3 ≤ N) (f : Grid) (j : Nat) :
    vStep N b f j (IX N 0 j) = if b = 1 then -(f (IX N 1 j)) else f (IX N 1 j) := by
  simp only [vStep]
  rw [upd_other (IX_ne (by omega) (by omega) (Or.inl (by omega))), upd_self]

theorem vStep_right (N b : Nat) (hN : 3 ≤ N) (f : Grid) (j : Nat) :
    vStep N b f j (IX N (N - 1) j) =
      if b = 1 then -(f (IX N (N - 2) j)) else f (IX N (N - 2) j) := by
  simp only [vStep]
  rw [upd_self, upd_other (IX_ne (by omega) (by omega) (Or.inl (by omega)))]

theorem hStep_other (N b : Nat) (f : Grid) (i : Nat) {n : Nat}
    (h1 : n ≠ IX N i 0) (h2 : n ≠ IX N i (N - 1)) : hStep N b f i n = f n := by
  simp only [hStep]
  rw [upd_other h2, upd_other h1]

theorem hStep_bottom (N b : Nat) (hN : 3 ≤ N) (f : Grid) (i : Nat) (hi : i < N) :
    hStep N b f i (IX N i 0) = if b = 2 then -(f (IX N i 1)) else f (IX N i 1) := by
  simp only [hStep]
  rw [upd_other (IX_ne hi hi (Or.inr (by omega))), upd_self]

theorem hStep_top (N b : Nat) (hN : 3 ≤ N) (f : Grid) (i : Nat) (hi : i < N) :
    hStep N b f i (IX N i (N - 1)) =
      if b = 2 then -(f (IX N i (N - 2))) else f (IX N i (N - 2)) := by
  simp only [hStep]
  rw [upd_self, upd_other (IX_ne hi hi (Or.inr (by omega)))]

theorem vIter_other (N b : Nat) (x : Grid) {n : Nat} (k : Nat)
    (h : ∀ j, 1 ≤ j → j ≤ k → n ≠ IX N 0 j ∧ n ≠ IX N (N - 1) j) :
    iterUp (vStep N b) x k n = x n := by
  induction k with
  | zero => rfl
  | succ k ih =>
    simp only [iterUp]
    rw [vStep_other N b _ _ (h (k + 1) (by omega) (by omega)).1
      (h (k + 1) (by omega) (by omega)).2]
    exact ih fun j hj1 hj2 => h j hj1 (by omega)

theorem hIter_other (N b : Nat) (x : Grid) {n : Nat} (k : Nat)
    (h : ∀ i, 1 ≤ i → i ≤ k → n ≠ IX N i 0 ∧ n ≠ IX N i (N - 1)) :
    iterUp (hStep N b) x k n = x n := by
  induction k with
  | zero => rfl
  | succ k ih =>
    simp only [iterUp]
    rw [hStep_other N b _ _ (h (k + 1) (by omega) (by omega)).1
      (h (k + 1) (by omega) (by omega)).2]
    exact ih fun i hi1 hi2 => h i hi1 (by omega)

theorem vIter_left (N b : Nat) (hN : 3 ≤ N) (x : Grid) (j : Nat) (hj1 : 1 ≤ j) (k : Nat)
    (hjk : j ≤ k) (hk : k ≤ N - 2) :
    iterUp (vStep N b) x k (IX N 0 j) =
      if b = 1 then -(x (IX N 1 j)) else x (IX N 1 j) := by
  induction k with
  | zero => omega
  | succ k ih =>
    simp only [iterUp]
    by_cases hj : j = k + 1
    · subst hj
      rw [vStep_left N b hN]
      have hread : iterUp (vStep N b) x k (IX N 1 (k + 1)) = x (IX N 1 (k + 1)) :=
        vIter_other N b x k fun m hm1 hm2 =>
          ⟨IX_ne (by omega) (by omega) (Or.inl (by omega)),
           IX_ne (by omega) (by omega) (Or.inl (by omega))⟩
      rw [hread]
    · rw [vStep_other N b _ _
        (IX_ne (by omega) (by omega) (Or.inr (by omega)))
        (IX_ne (by omega) (by omega) (Or.inl (by omega)))]
      exact ih (by omega) (by omega)

theorem vIter_right (N b : Nat) (hN : 3 ≤ N) (x : Grid) (j : Nat) (hj1 : 1 ≤ j) (k : Nat)
    (hjk : j ≤ k) (hk : k ≤ N - 2) :
    iterUp (vStep N b) x k (IX N (N - 1) j) =
      if b = 1 then -(x (IX N (N - 2) j)) else x (IX N (N - 2) j) := by
  induction k with
  | zero => omega
  | succ k ih =>
    simp only [iterUp]
    by_cases hj : j = k + 1
    · subst hj
      rw [vStep_right N b hN]
      have hread : iterUp (vStep N b) x k (IX N (N - 2) (k + 1)) = x (IX N (N - 2) (k + 1)) :=
        vIter_other N b x k fun m hm1 hm2 =>
          ⟨IX_ne (by omega) (by omega) (Or.inl (by omega)),
           IX_ne (by omega) (by omega) (Or.inl (by omega))⟩
      rw [hread]
    · rw [vStep_other N b _ _
        (IX_ne (by omega) (by omega) (Or.inr (by omega)))
        (IX_ne (by omega) (by omega) (Or.inr (by omega)))]
      exact ih (by omega) (by omega)

theorem hIter_bottom (N b : Nat) (hN : 3 ≤ N) (x : Grid) (i : Nat) (hi1 : 1 ≤ i) (k : Nat)
    (hik : i ≤ k) (hk : k ≤ N - 2) :
    iterUp (hStep N b) x k (IX N i 0) =
      if b = 2 then -(x (IX N i 1)) else x (IX N i 1) := by
  induction k with
  | zero => omega
  | succ k ih =>
    simp only [iterUp]
    by_cases hj : i = k + 1
    · subst hj
      rw [hStep_bottom N b hN _ _ (by omega)]
      have hread : iterUp (hStep N b) x k (IX N (k + 1) 1) = x (IX N (k + 1) 1) :=
        hIter_other N b x k fun m hm1 hm2 =>
          ⟨IX_ne (by omega) (by omega) (Or.inr (by omega)),
           IX_ne (by omega) (by omega) (Or.inr (by omega))⟩
      rw [hread]
    · rw [hStep_other N b _ _
        (IX_ne (by omega) (by omega) (Or.inl (by omega)))
        (IX_ne (by omega) (by omega) (Or.inl (by omega)))]
      exact ih (by omega) (by omega)

theorem hIter_top (N b : Nat) (hN : 3 ≤ N) (x : Grid) (i : Nat) (hi1 : 1 ≤ i) (k : Nat)
    (hik : i ≤ k) (hk : k ≤ N - 2) :
    iterUp (hStep N b) x k (IX N i (N - 1)) =
      if b = 2 then -(x (IX N i (N - 2))) else x (IX N i (N - 2)) := by
  induction k with
  | zero => omega
  | succ k ih =>
    simp only [iterUp]
    by_cases hj : i = k + 1
    · subst hj
      rw [hStep_top N b hN _ _ (by omega)]
      have hread : iterUp (hStep N b) x k (IX N (k + 1) (N - 2)) = x (IX N (k + 1) (N - 2)) :=
        hIter_other N b x k fun m hm1 hm2 =>
          ⟨IX_ne (by omega) (by omega) (Or.inr (by omega)),
           IX_ne (by omega) (by omega) (Or.inr (by omega))⟩
      rw [hread]
    · rw [hStep_other N b _ _
        (IX_ne (by omega) (by omega) (Or.inl (by omega)))
        (IX_ne (by omega) (by omega) (Or.inl (by omega)))]
      exact ih (by omega) (by omega)

theorem ne_of_ge_sq {N n a b : Nat} (ha : a < N) (hb : b < N) (hn : N * N ≤ n) :
    n ≠ IX N a b := by
  have := IX_lt ha hb
  omega

theorem setBoundary_left (N b : Nat) (hN : 3 ≤ N) (x : Grid) (j : Nat)
    (hj1 : 1 ≤ j) (hj2 : j ≤ N - 2) :
    setBoundary N b x (IX N 0 j) = if b = 1 then -(x (IX N 1 j)) else x (IX N 1 j) := by
  simp only [setBoundary]
  rw [upd_other (IX_ne (by omega) (by omega) (Or.inl (by omega))),
    upd_other (IX_ne (by omega) (by omega) (Or.inl (by omega))),
    upd_other (IX_ne (by omega) (by omega) (Or.inr (by omega))),
    upd_other (IX_ne (by omega) (by omega) (Or.inr (by omega))),
    hIter_other N b _ _ (fun i hi1 hi2 =>
      ⟨IX_ne (by omega) (by omega) (Or.inl (by omega)),
       IX_ne (by omega) (by omega) (Or.inl (by omega))⟩),
    vIter_left N b hN x j hj1 (N - 2) hj2 (le_refl _)]

theorem setBoundary_right (N b : Nat) (hN : 3 ≤ N) (x : Grid) (j : Nat)
    (hj1 : 1 ≤ j) (hj2 : j ≤ N - 2) :
    setBoundary N b x (IX N (N - 1) j) =
      if b = 1 then -(x (IX N (N - 2) j)) else x (IX N (N - 2) j) := by
  simp only [setBoundary]
  rw [upd_other (IX_ne (by omega) (by omega) (Or.inr (by omega))),
    upd_other (IX_ne (by omega) (by omega) (Or.inr (by omega))),
    upd_other (IX_ne (by omega) (by omega) (Or.inl (by omega))),
    upd_other (IX_ne (by omega) (by omega) (Or.inl (by omega))),
    hIter_other N b _ _ (fun i hi1 hi2 =>
      ⟨IX_ne (by omega) (by omega) (Or.inr (by omega)),
       IX_ne (by omega) (by omega) (Or.inr (by omega))⟩),
    vIter_right N b hN x j hj1 (N - 2) hj2 (le_refl _)]

theorem setBoundary_bottom (N b : Nat) (hN : 3 ≤ N) (x : Grid) (i : Nat)
    (hi1 : 1 ≤ i) (hi2 : i ≤ N - 2) :
    setBoundary N b x (IX N i 0) = if b = 2 then -(x (IX N i 1)) else x (IX N i 1) := by
  simp only [setBoundary]
  rw [upd_other (IX_ne (by omega) (by omega) (Or.inl (by omega))),
    upd_other (IX_ne (by omega) (by omega) (Or.inl (by omega))),
    upd_other (IX_ne (by omega) (by omega) (Or.inl (by omega))),
    upd_other (IX_ne (by omega) (by omega) (Or.inl (by omega))),
    hIter_bottom N b hN _ i hi1 (N - 2) hi2 (le_refl _),
    vIter_other N b _ _ (fun m hm1 hm2 =>
      ⟨IX_ne (by omega) (by omega) (Or.inl (by omega)),
       IX_ne (by omega) (by omega) (Or.inl (by omega))⟩)]

theorem setBoundary_top (N b : Nat) (hN : 3 ≤ N) (x : Grid) (i : Nat)
    (hi1 : 1 ≤ i) (hi2 : i ≤ N - 2) :
    setBoundary N b x (IX N i (N - 1)) =
      if b = 2 then -(x (IX N i (N - 2))) else x (IX N i (N - 2)) := by
  simp only [setBoundary]
  rw [upd_other (IX_ne (by omega) (by omega) (Or.inl (by omega))),
    upd_other (IX_ne (by omega) (by omega) (Or.inl (by omega))),
    upd_other (IX_ne (by omega) (by omega) (Or.inl (by omega))),
    upd_other (IX_ne (by omega) (by omega) (Or.inl (by omega))),
    hIter_top N b hN _ i hi1 (N - 2) hi2 (le_refl _),
    vIter_other N b _ _ (fun m hm1 hm2 =>
      ⟨IX_ne (by omega) (by omega) (Or.inl (by omega)),
       IX_ne (by omega) (by omega) (Or.inl (by omega))⟩)]

theorem setBoundary_interior (N b : Nat) (hN : 3 ≤ N) (x : Grid) (i j : Nat)
    (hi1 : 1 ≤ i) (hi2 : i ≤ N - 2) (hj1 : 1 ≤ j) (hj2 : j ≤ N - 2) :
    setBoundary N b x (IX N i j) = x (IX N i j) := by
  simp only [setBoundary]
  rw [upd_other (IX_ne (by omega) (by omega) (Or.inl (by omega))),
    upd_other (IX_ne (by omega) (by omega) (Or.inl (by omega))),
    upd_other (IX_ne (by omega) (by omega) (Or.inl (by omega))),
    upd_other (IX_ne (by omega) (by omega) (Or.inl (by omega))),
    hIter_other N b _ _ (fun m hm1 hm2 =>
      ⟨IX_ne (by omega) (by omega) (Or.inr (by omega)),
       IX_ne (by omega) (by omega) (Or.inr (by omega))⟩),
    vIter_other N b _ _ (fun m hm1 hm2 =>
      ⟨IX_ne (by omega) (by omega) (Or.inl (by omega)),
       IX_ne (by omega) (by omega) (Or.inl (by omega))⟩)]

theorem setBoundary_high (N b : Nat) (hN : 3 ≤ N) (x : Grid) (n : Nat)
    (hn : N * N ≤ n) : setBoundary N b x n = x n := by
  simp only [setBoundary]
  rw [upd_other (ne_of_ge_sq (by omega) (by omega) hn),
    upd_other (ne_of_ge_sq (by omega) (by omega) hn),
    upd_other (ne_of_ge_sq (by omega) (by omega) hn),
    upd_other (ne_of_ge_sq (by omega) (by omega) hn),
    hIter_other N b _ _ (fun m hm1 hm2 =>
      ⟨ne_of_ge_sq (by omega) (by omega) hn, ne_of_ge_sq (by omega) (by omega) hn⟩),
    vIter_other N b _ _ (fun m hm1 hm2 =>
      ⟨ne_of_ge_sq (by omega) (by omega) hn, ne_of_ge_sq (by omega) (by omega) hn⟩)]

theorem setBoundary_c00 (N b : Nat) (hN : 3 ≤ N) (x : Grid) :
    setBoundary N b x (IX N 0 0) =
      (1/2) * ((if b = 2 then -(x (IX N 1 1)) else x (IX N 1 1)) +
               (if b = 1 then -(x (IX N 1 1)) else x (IX N 1 1))) := by
  simp only [setBoundary]
  rw [upd_other (IX_ne (by omega) (by omega) (Or.inl (by omega))),
    upd_other (IX_ne (by omega) (by omega) (Or.inl (by omega))),
    upd_other (IX_ne (by omega) (by omega) (Or.inr (by omega))),
    upd_self,
    hIter_bottom N b hN _ 1 (le_refl _) (N - 2) (by omega) (le_refl _),
    hIter_other N b _ _ (fun m hm1 hm2 =>
      ⟨IX_ne (by omega) (by omega) (Or.inl (by omega)),
       IX_ne (by omega) (by omega) (Or.inl (by omega))⟩),
    vIter_other N b _ _ (fun m hm1 hm2 =>
      ⟨IX_ne (by omega) (by omega) (Or.inl (by omega)),
       IX_ne (by omega) (by omega) (Or.inl (by omega))⟩),
    vIter_left N b hN x 1 (le_refl _) (N - 2) (by omega) (le_refl _)]

theorem setBoundary_c0N (N b : Nat) (hN : 3 ≤ N) (x : Grid) :
    setBoundary N b x (IX N 0 (N - 1)) =
      (1/2) * ((if b = 2 then -(x (IX N 1 (N - 2))) else x (IX N 1 (N - 2))) +
               (if b = 1 then -(x (IX N 1 (N - 2))) else x (IX N 1 (N - 2)))) := by
  simp only [setBoundary]
  rw [upd_other (IX_ne (by omega) (by omega) (Or.inl (by omega))),
    upd_other (IX_ne (by omega) (by omega) (Or.inl (by omega))),
    upd_self,
    upd_other (IX_ne (by omega) (by omega) (Or.inr (by omega))),
    upd_other (IX_ne (by omega) (by omega) (Or.inr (by omega))),
    hIter_top N b hN _ 1 (le_refl _) (N - 2) (by omega) (le_refl _),
    hIter_other N b _ _ (fun m hm1 hm2 =>
      ⟨IX_ne (by omega) (by omega) (Or.inl (by omega)),
       IX_ne (by omega) (by omega) (Or.inr (by omega))⟩),
    vIter_other N b _ _ (fun m hm1 hm2 =>
      ⟨IX_ne (by omega) (by omega) (Or.inl (by omega)),
       IX_ne (by omega) (by omega) (Or.inl (by omega))⟩),
    vIter_left N b hN x (N - 2) (by omega) (N - 2) (le_refl _) (le_refl _)]

theorem setBoundary_cN0 (N b : Nat) (hN : 3 ≤ N) (x : Grid) :
    setBoundary N b x (IX N (N - 1) 0) =
      (1/2) * ((if b = 2 then -(x (IX N (N - 2) 1)) else x (IX N (N - 2) 1)) +
               (if b = 1 then -(x (IX N (N - 2) 1)) else x (IX N (N - 2) 1))) := by
  simp only [setBoundary]
  rw [upd_other (IX_ne (by omega) (by omega) (Or.inr (by omega))),
    upd_self,
    upd_other (IX_ne (by omega) (by omega) (Or.inl (by omega))),
    upd_other (IX_ne (by omega) (by omega) (Or.inl (by omega))),
    upd_other (IX_ne (by omega) (by omega) (Or.inl (by omega))),
    upd_other (IX_ne (by omega) (by omega) (Or.inl (by omega))),
    hIter_bottom N b hN _ (N - 2) (by omega) (N - 2) (le_refl _) (le_refl _),
    hIter_other N b _ _ (fun m hm1 hm2 =>
      ⟨IX_ne (by omega) (by omega) (Or.inr (by omega)),
       IX_ne (by omega) (by omega) (Or.inr (by omega))⟩),
    vIter_other N b _ _ (fun m hm1 hm2 =>
      ⟨IX_ne (by omega) (by omega) (Or.inl (by omega)),
       IX_ne (by omega) (by omega) (Or.inl (by omega))⟩),
    vIter_right N b hN x 1 (le_refl _) (N - 2) (by omega) (le_refl _)]

theorem setBoundary_cNN (N b : Nat) (hN : 3 ≤ N) (x : Grid) :
    setBoundary N b x (IX N (N - 1) (N - 1)) =
      (1/2) * ((if b = 2 then -(x (IX N (N - 2) (N - 2))) else x (IX N (N - 2) (N - 2))) +
               (if b = 1 then -(x (IX N (N - 2) (N - 2))) else x (IX N (N - 2) (N - 2)))) := by
  simp only [setBoundary]
  rw [upd_self,
    upd_other (IX_ne (by omega) (by omega) (Or.inl (by omega))),
    upd_other (IX_ne (by omega) (by omega) (Or.inl (by omega))),
    upd_other (IX_ne (by omega) (by omega) (Or.inl (by omega))),
    upd_other (IX_ne (by omega) (by omega) (Or.inr (by omega))),
    upd_other (IX_ne (by omega) (by omega) (Or.inr (by omega))),
    upd_other (IX_ne (by omega) (by omega) (Or.inl (by omega))),
    hIter_top N b hN _ (N - 2) (by omega) (N - 2) (le_refl _) (le_refl _),
    hIter_other N b _ _ (fun m hm1 hm2 =>
      ⟨IX_ne (by omega) (by omega) (Or.inr (by omega)),
       IX_ne (by omega) (by omega) (Or.inr (by omega))⟩),
    vIter_other N b _ _ (fun m hm1 hm2 =>
      ⟨IX_ne (by omega) (by omega) (Or.inl (by omega)),
       IX_ne (by omega) (by omega) (Or.inl (by omega))⟩),
    vIter_right N b hN x (N - 2) (by omega) (N - 2) (le_refl _) (le_refl _)]

/-- Claim C2: immediately after `setBoundary(b, field)`, for every interior
row index j the left/right border cells mirror the adjacent interior cells,
sign-flipped exactly when b = 1; for every interior column index the
bottom/top border cells mirror the adjacent interior cells, sign-flipped
exactly when b = 2; and each of the four corner cells equals the average
of its two adjacent edge-border cells, for every kind. -/
theorem setBoundary_boundary_conditions (N b : Nat) (hN : 3 ≤ N) (x : Grid)
    (j : Nat) (hj1 : 1 ≤ j) (hj2 : j ≤ N - 2) :
    (setBoundary N b x (IX N 0 j) =
      if b = 1 then -(setBoundary N b x (IX N 1 j)) else setBoundary N b x (IX N 1 j)) ∧
    (setBoundary N b x (IX N (N - 1) j) =
      if b = 1 then -(setBoundary N b x (IX N (N - 2) j))
      else setBoundary N b x (IX N (N - 2) j)) ∧
    (setBoundary N b x (IX N j 0) =
      if b = 2 then -(setBoundary N b x (IX N j 1)) else setBoundary N b x (IX N j 1)) ∧
    (setBoundary N b x (IX N j (N - 1)) =
      if b = 2 then -(setBoundary N b x (IX N j (N - 2)))
      else setBoundary N b x (IX N j (N - 2))) ∧
    (setBoundary N b x (IX N 0 0) =
      (1/2) * (setBoundary N b x (IX N 1 0) + setBoundary N b x (IX N 0 1))) ∧
    (setBoundary N b x (IX N 0 (N - 1)) =
      (1/2) * (setBoundary N b x (IX N 1 (N - 1)) + setBoundary N b x (IX N 0 (N - 2)))) ∧
    (setBoundary N b x (IX N (N - 1) 0) =
      (1/2) * (setBoundary N b x (IX N (N - 2) 0) + setBoundary N b x (IX N (N - 1) 1))) ∧
    (setBoundary N b x (IX N (N - 1) (N - 1)) =
      (1/2) * (setBoundary N b x (IX N (N - 2) (N - 1)) +
               setBoundary N b x (IX N (N - 1) (N - 2)))) := by
  refine ⟨?_, ?_, ?_, ?_, ?_, ?_, ?_, ?_⟩
  · rw [setBoundary_left N b hN x j hj1 hj2,
      setBoundary_interior N b hN x 1 j (by omega) (by omega) hj1 hj2]
  · rw [setBoundary_right N b hN x j hj1 hj2,
      setBoundary_interior N b hN x (N - 2) j (by omega) (by omega) hj1 hj2]
  · rw [setBoundary_bottom N b hN x j hj1 hj2,
      setBoundary_interior N b hN x j 1 hj1 hj2 (by omega) (by omega)]
  · rw [setBoundary_top N b hN x j hj1 hj2,
      setBoundary_interior N b hN x j (N - 2) hj1 hj2 (by omega) (by omega)]
  · rw [setBoundary_c00 N b hN x,
      setBoundary_bottom N b hN x 1 (by omega) (by omega),
      setBoundary_left N b hN x 1 (by omega) (by omega)]
  · rw [setBoundary_c0N N b hN x,
      setBoundary_top N b hN x 1 (by omega) (by omega),
      setBoundary_left N b hN x (N - 2) (by omega) (by omega)]
  · rw [setBoundary_cN0 N b hN x,
      setBoundary_bottom N b hN x (N - 2) (by omega) (by omega),
      setBoundary_right N b hN x 1 (by omega) (by omega)]
  · rw [setBoundary_cNN N b hN x,
      setBoundary_top N b hN x (N - 2) (by omega) (by omega),
      setBoundary_right N b hN x (N - 2) (by omega) (by omega)]

/-- Witness for C2: the left-edge mirror conjunct of
`setBoundary_boundary_conditions` instantiated at N = 4, b = 1, row j = 1,
on the fixture grid. -/
theorem setBoundary_boundary_conditions_witness :
    setBoundary 4 1 wGrid (IX 4 0 1) = -(setBoundary 4 1 wGrid (IX 4 1 1)) := by
  have h := (setBoundary_boundary_conditions 4 1 (by norm_num) wGrid 1
    (by norm_num) (by norm_num)).1
  simpa using h

/-- Claim C10: `setBoundary` is idempotent — applying it twice yields the
same field contents as applying it once, at every index (border cells are
recomputed from interior cells, which `setBoundary` never modifies, and
corners only from edge cells). -/
theorem setBoundary_idem_at (N b : Nat) (hN : 3 ≤ N) (x : Grid) (i j : Nat)
    (hi : i < N) (hj : j < N) :
    setBoundary N b (setBoundary N b x) (IX N i j) = setBoundary N b x (IX N i j) := by
  have hcase1 : i = 0 ∨ i = N - 1 ∨ (1 ≤ i ∧ i ≤ N - 2) := by omega
  have hcase2 : j = 0 ∨ j = N - 1 ∨ (1 ≤ j ∧ j ≤ N - 2) := by omega
  rcases hcase1 with hi0 | hiN | ⟨hia, hib⟩ <;>
    rcases hcase2 with hj0 | hjN | ⟨hja, hjb⟩
  · rw [hi0, hj0, setBoundary_c00 N b hN, setBoundary_c00 N b hN,
      setBoundary_interior N b hN x 1 1 (by omega) (by omega) (by omega) (by omega)]
  · rw [hi0, hjN, setBoundary_c0N N b hN, setBoundary_c0N N b hN,
      setBoundary_interior N b hN x 1 (N - 2) (by omega) (by omega) (by omega) (by omega)]
  · rw [hi0, setBoundary_left N b hN _ j hja hjb,
      setBoundary_left N b hN x j hja hjb,
      setBoundary_interior N b hN x 1 j (by omega) (by omega) hja hjb]
  · rw [hiN, hj0, setBoundary_cN0 N b hN, setBoundary_cN0 N b hN,
      setBoundary_interior N b hN x (N - 2) 1 (by omega) (by omega) (by omega) (by omega)]
  · rw [hiN, hjN, setBoundary_cNN N b hN, setBoundary_cNN N b hN,
      setBoundary_interior N b hN x (N - 2) (N - 2) (by omega) (by omega) (by omega)
        (by omega)]
  · rw [hiN, setBoundary_right N b hN _ j hja hjb,
      setBoundary_right N b hN x j hja hjb,
      setBoundary_interior N b hN x (N - 2) j (by omega) (by omega) hja hjb]
  · rw [hj0, setBoundary_bottom N b hN _ i hia hib,
      setBoundary_bottom N b hN x i hia hib,
      setBoundary_interior N b hN x i 1 hia hib (by omega) (by omega)]
  · rw [hjN, setBoundary_top N b hN _ i hia hib,
      setBoundary_top N b hN x i hia hib,
      setBoundary_interior N b hN x i (N - 2) hia hib (by omega) (by omega)]
  · rw [setBoundary_interior N b hN _ i j hia hib hja hjb,
      setBoundary_interior N b hN x i j hia hib hja hjb]

/-- Claim C10: `setBoundary` is idempotent — applying it twice yields the
same field contents as applying it once, at every index (border cells are
recomputed from interior cells, which `setBoundary` never modifies, and
corners only from edge cells). -/
theorem setBoundary_idempotent (N b : Nat) (hN : 3 ≤ N) (x : Grid) (n : Nat) :
    setBoundary N b (setBoundary N b x) n = setBoundary N b x n := by
  by_cases hn : n < N * N
  · have hNpos : 0 < N := by omega
    have hi : n % N < N := Nat.mod_lt n hNpos
    have hj : n / N < N := (Nat.div_lt_iff_lt_mul hNpos).2 (by omega)
    have hix : IX N (n % N) (n / N) = n := by
      simp only [IX]
      exact Nat.mod_add_div' n N
    rw [← hix]
    exact setBoundary_idem_at N b hN x (n % N) (n / N) hi hj
  · rw [setBoundary_high N b hN _ n (by omega)]

/-- Witness for C10: idempotence of `setBoundary` instantiated at N = 4,
b = 2, index 0, on the fixture grid. -/
theorem setBoundary_idempotent_witness :
    setBoundary 4 2 (setBoundary 4 2 wGrid) 0 = setBoundary 4 2 wGrid 0 :=
  setBoundary_idempotent 4 2 (by norm_num) wGrid 0

/-! The advection clamp. -/

theorem advClamp_mem (N : Nat) (hN : 3 ≤ N) (t : ℚ) :
    1/2 ≤ advClamp N t ∧ advClamp N t ≤ (N : ℚ) - 3/2 := by
  have hN3 : (3 : ℚ) ≤ (N : ℚ) := by exact_mod_cast hN
  simp only [advClamp]
  split_ifs with h1 h2 h3 <;> constructor <;> linarith

theorem advClamp_floor_bounds (N : Nat) (hN : 3 ≤ N) (t : ℚ) :
    0 ≤ ⌊advClamp N t⌋ ∧ ⌊advClamp N t⌋ + 1 ≤ (N : ℤ) - 1 := by
  obtain ⟨hlo, hhi⟩ := advClamp_mem N hN t
  have hN3 : (3 : ℚ) ≤ (N : ℚ) := by exact_mod_cast hN
  constructor
  · exact Int.le_floor.2 (by push_cast; linarith)
  · have h2 : ⌊advClamp N t⌋ < (N : ℤ) - 1 := Int.floor_lt.2 (by push_cast; linarith)
    omega

/-- Claim C1: for every grid size N ≥ 3, every time step dt and every
velocity-field contents, the bilinear interpolation corners
(i0, j0), (i0, j1), (i1, j0), (i1, j1) that `advect` reads at any cell
(i, j) lie inside [0, N-1] × [0, N-1]: the backtraced coordinates are
clamped into [1/2, N - 3/2] before flooring, so i0 = ⌊x⌋ ≥ 0 and
i1 = i0 + 1 ≤ N - 1 (and likewise for j0, j1), regardless of
dt · N · velocity. -/
theorem advect_corners_in_bounds (N : Nat) (hN : 3 ≤ N) (velocX velocY : Grid)
    (dt : ℚ) (i j : Nat) :
    (0 ≤ ⌊advClamp N ((i : ℚ) - dt * (N : ℚ) * velocX (IX N i j))⌋ ∧
      ⌊advClamp N ((i : ℚ) - dt * (N : ℚ) * velocX (IX N i j))⌋ + 1 ≤ (N : ℤ) - 1) ∧
    (0 ≤ ⌊advClamp N ((j : ℚ) - dt * (N : ℚ) * velocY (IX N i j))⌋ ∧
      ⌊advClamp N ((j : ℚ) - dt * (N : ℚ) * velocY (IX N i j))⌋ + 1 ≤ (N : ℤ) - 1) :=
  ⟨advClamp_floor_bounds N hN _, advClamp_floor_bounds N hN _⟩

/-- Witness for C1: the sample bounds instantiated at N = 3, dt = 7 and
velocities of magnitude 123456789 (dt · N · velocity far beyond the grid). -/
theorem advect_corners_in_bounds_witness :
    (0 ≤ ⌊advClamp 3 ((1 : ℚ) - 7 * (3 : ℚ) * wHuge (IX 3 1 1))⌋ ∧
      ⌊advClamp 3 ((1 : ℚ) - 7 * (3 : ℚ) * wHuge (IX 3 1 1))⌋ + 1 ≤ (3 : ℤ) - 1) ∧
    (0 ≤ ⌊advClamp 3 ((1 : ℚ) - 7 * (3 : ℚ) * wHugeNeg (IX 3 1 1))⌋ ∧
      ⌊advClamp 3 ((1 : ℚ) - 7 * (3 : ℚ) * wHugeNeg (IX 3 1 1))⌋ + 1 ≤ (3 : ℤ) - 1) :=
  advect_corners_in_bounds 3 (by norm_num) wHuge wHugeNeg 7 1 1

/-! Pointwise description of one in-place interior sweep (`cellPass`). -/

theorem cellRow_other (N : Nat) (g : Grid → Nat → Nat → ℚ) (j : Nat) (f : Grid)
    {n : Nat} (k : Nat) (h : ∀ m, 1 ≤ m → m ≤ k → n ≠ IX N m j) :
    cellRow N g j f k n = f n := by
  induction k with
  | zero => rfl
  | succ k ih =>
    simp only [cellRow]
    rw [upd_other (h (k + 1) (by omega) (by omega))]
    exact ih fun m hm1 hm2 => h m hm1 (by omega)

theorem cellRows_other (N : Nat) (g : Grid → Nat → Nat → ℚ) (f : Grid)
    {n : Nat} (k : Nat) (h : ∀ a c, 1 ≤ a → a ≤ N - 2 → 1 ≤ c → c ≤ k → n ≠ IX N a c) :
    cellRows N g f k n = f n := by
  induction k with
  | zero => rfl
  | succ k ih =>
    simp only [cellRows]
    rw [cellRow_other N g (k + 1) _ (N - 2)
      (fun m hm1 hm2 => h m (k + 1) hm1 hm2 (by omega) (by omega))]
    exact ih fun a c ha1 ha2 hc1 hc2 => h a c ha1 ha2 hc1 (by omega)

theorem cellRow_get (N : Nat) (g : Grid → Nat → Nat → ℚ) (j : Nat) (f : Grid)
    (i : Nat) (hi1 : 1 ≤ i) (k : Nat) (hik : i ≤ k) (hkN : k ≤ N - 2) :
    cellRow N g j f k (IX N i j) = g (cellRow N g j f (i - 1)) i j := by
  induction k with
  | zero => omega
  | succ k ih =>
    by_cases hik2 : i = k + 1
    · subst hik2
      simp only [cellRow]
      rw [upd_self]
      simp only [Nat.add_sub_cancel]
    · simp only [cellRow]
      rw [upd_other (IX_ne (by omega) (by omega) (Or.inl (by omega)))]
      exact ih (by omega) (by omega)

theorem cellRow_stable (N : Nat) (g : Grid → Nat → Nat → ℚ) (j : Nat) (f : Grid)
    (i : Nat) (hi1 : 1 ≤ i) (k k2 : Nat) (hik : i ≤ k) (hk2 : k ≤ k2) (hk2N : k2 ≤ N - 2) :
    cellRow N g j f k2 (IX N i j) = cellRow N g j f k (IX N i j) := by
  induction k2 with
  | zero => omega
  | succ k2 ih =>
    rcases Nat.lt_or_ge k (k2 + 1) with h | h
    · simp only [cellRow]
      rw [upd_other (IX_ne (by omega) (by omega) (Or.inl (by omega)))]
      exact ih (by omega) (by omega)
    · have hkk : k = k2 + 1 := by omega
      rw [hkk]

theorem cellRows_stable (N : Nat) (g : Grid → Nat → Nat → ℚ) (f : Grid)
    (i j : Nat) (hi : i < N) (hj1 : 1 ≤ j) (k k2 : Nat) (hjk : j ≤ k) (hk2 : k ≤ k2)
    (hk2N : k2 ≤ N - 2) :
    cellRows N g f k2 (IX N i j) = cellRows N g f k (IX N i j) := by
  induction k2 with
  | zero => omega
  | succ k2 ih =>
    rcases Nat.lt_or_ge k (k2 + 1) with h | h
    · simp only [cellRows]
      rw [cellRow_other N g (k2 + 1) _ (N - 2)
        (fun m hm1 hm2 => IX_ne hi (by omega) (Or.inr (by omega)))]
      exact ih (by omega) (by omega)
    · have hkk : k = k2 + 1 := by omega
      rw [hkk]

theorem cellPass_get (N : Nat) (hN : 3 ≤ N) (g : Grid → Nat → Nat → ℚ) (f : Grid)
    (i j : Nat) (hi1 : 1 ≤ i) (hi2 : i ≤ N - 2) (hj1 : 1 ≤ j) (hj2 : j ≤ N - 2) :
    cellPass N g f (IX N i j) = g (cellRow N g j (cellRows N g f (j - 1)) (i - 1)) i j := by
  unfold cellPass
  rw [cellRows_stable N g f i j (by omega) hj1 j (N - 2) (le_refl _) hj2 (le_refl _)]
  have hj' : j = (j - 1) + 1 := by omega
  rw [hj']
  simp only [cellRows]
  rw [← hj']
  exact cellRow_get N g j _ i hi1 (N - 2) hi2 (le_refl _)

theorem cellPartial_right (N : Nat) (hN : 3 ≤ N) (g : Grid → Nat → Nat → ℚ) (f : Grid)
    (i j : Nat) (hi1 : 1 ≤ i) (hi2 : i ≤ N - 2) (hj1 : 1 ≤ j) (hj2 : j ≤ N - 2) :
    cellRow N g j (cellRows N g f (j - 1)) (i - 1) (IX N (i + 1) j) = f (IX N (i + 1) j) := by
  rw [cellRow_other N g j _ (i - 1) (fun m hm1 hm2 =>
    IX_ne (by omega) (by omega) (Or.inl (by omega)))]
  exact cellRows_other N g f (j - 1) fun a c ha1 ha2 hc1 hc2 =>
    IX_ne (by omega) (by omega) (Or.inr (by omega))

theorem cellPartial_up (N : Nat) (hN : 3 ≤ N) (g : Grid → Nat → Nat → ℚ) (f : Grid)
    (i j : Nat) (hi1 : 1 ≤ i) (hi2 : i ≤ N - 2) (hj1 : 1 ≤ j) (hj2 : j ≤ N - 2) :
    cellRow N g j (cellRows N g f (j - 1)) (i - 1) (IX N i (j + 1)) = f (IX N i (j + 1)) := by
  rw [cellRow_other N g j _ (i - 1) (fun m hm1 hm2 =>
    IX_ne (by omega) (by omega) (Or.inr (by omega)))]
  exact cellRows_other N g f (j - 1) fun a c ha1 ha2 hc1 hc2 =>
    IX_ne (by omega) (by omega) (Or.inr (by omega))

theorem cellPartial_left (N : Nat) (hN : 3 ≤ N) (g : Grid → Nat → Nat → ℚ) (f : Grid)
    (i j : Nat) (hi1 : 1 ≤ i) (hi2 : i ≤ N - 2) (hj1 : 1 ≤ j) (hj2 : j ≤ N - 2) :
    cellRow N g j (cellRows N g f (j - 1)) (i - 1) (IX N (i - 1) j) =
      cellPass N g f (IX N (i - 1) j) := by
  rcases Nat.lt_or_ge i 2 with hi | hi
  · have hi0 : i - 1 = 0 := by omega
    rw [hi0]
    rw [cellRow_other N g j _ 0 (fun m hm1 hm2 => by omega)]
    rw [cellRows_other N g f (j - 1) (fun a c ha1 ha2 hc1 hc2 =>
      IX_ne (by omega) (by omega) (Or.inl (by omega)))]
    unfold cellPass
    rw [cellRows_other N g f (N - 2) (fun a c ha1 ha2 hc1 hc2 =>
      IX_ne (by omega) (by omega) (Or.inl (by omega)))]
  · unfold cellPass
    rw [cellRows_stable N g f (i - 1) j (by omega) hj1 j (N - 2) (le_refl _) hj2 (le_refl _)]
    have hj' : j = (j - 1) + 1 := by omega
    rw [hj']
    simp only [cellRows]
    rw [← hj']
    rw [cellRow_stable N g j _ (i - 1) (by omega) (i - 1) (N - 2) (le_refl _) (by omega)
      (le_refl _)]

theorem cellPartial_down (N : Nat) (hN : 3 ≤ N) (g : Grid → Nat → Nat → ℚ) (f : Grid)
    (i j : Nat) (hi1 : 1 ≤ i) (hi2 : i ≤ N - 2) (hj1 : 1 ≤ j) (hj2 : j ≤ N - 2) :
    cellRow N g j (cellRows N g f (j - 1)) (i - 1) (IX N i (j - 1)) =
      cellPass N g f (IX N i (j - 1)) := by
  rw [cellRow_other N g j _ (i - 1) (fun m hm1 hm2 =>
    IX_ne (by omega) (by omega) (Or.inr (by omega)))]
  rcases Nat.lt_or_ge j 2 with hj | hj
  · have hj0 : j - 1 = 0 := by omega
    rw [hj0]
    simp only [cellRows]
    unfold cellPass
    rw [cellRows_other N g f (N - 2) (fun a c ha1 ha2 hc1 hc2 =>
      IX_ne (by omega) (by omega) (Or.inr (by omega)))]
  · unfold cellPass
    rw [cellRows_stable N g f i (j - 1) (by omega) (by omega) (j - 1) (N - 2) (le_refl _)
      (by omega) (le_refl _)]

theorem cellPass_border (N : Nat) (hN : 3 ≤ N) (g : Grid → Nat → Nat → ℚ) (f : Grid)
    {n : Nat} (h : ∀ a c, 1 ≤ a → a ≤ N - 2 → 1 ≤ c → c ≤ N - 2 → n ≠ IX N a c) :
    cellPass N g f n = f n := by
  unfold cellPass
  exact cellRows_other N g f (N - 2) h

/-- `iterUp0` with a counter-independent body is function iteration. -/
theorem iterUp0_const {α : Type} (F : α → α) (s : α) (n : Nat) :
    iterUp0 (fun a _ => F a) s n = F^[n] s := by
  induction n with
  | zero => rfl
  | succ n ih =>
    simp only [iterUp0, ih, Function.iterate_succ_apply']

/-- Claim C3: `diffuse` performs exactly `it` sweeps — each a full interior
Gauss–Seidel pass followed by `setBoundary`, with
a = dt · rate · (N-2)² — and within one sweep the value written at an
interior cell (i, j) is (src + a·(right + left + up + down)) / (1 + 4a)
where the right and up neighbours still hold the pre-sweep values and the
left and down neighbours already hold the values this sweep produced
(the in-progress array contents). -/
theorem diffuse_iterates_gauss_seidel (N it b : Nat) (hN : 3 ≤ N) (x x0 : Grid)
    (rate dt : ℚ) (a : ℚ) (f : Grid) (i j : Nat)
    (hi1 : 1 ≤ i) (hi2 : i ≤ N - 2) (hj1 : 1 ≤ j) (hj2 : j ≤ N - 2) :
    diffuse N it b x x0 rate dt =
      (fun w => setBoundary N b
        (oneSweep N (dt * rate * ((N : ℚ) - 2) * ((N : ℚ) - 2)) x0 w))^[it] x ∧
    oneSweep N a x0 f (IX N i j) =
      (x0 (IX N i j) +
        a * (f (IX N (i + 1) j) + oneSweep N a x0 f (IX N (i - 1) j) +
             f (IX N i (j + 1)) + oneSweep N a x0 f (IX N i (j - 1)))) / (1 + 4 * a) := by
  constructor
  · unfold diffuse
    exact iterUp0_const _ x it
  · unfold oneSweep
    rw [cellPass_get N hN _ f i j hi1 hi2 hj1 hj2,
      cellPartial_right N hN _ f i j hi1 hi2 hj1 hj2,
      cellPartial_up N hN _ f i j hi1 hi2 hj1 hj2,
      cellPartial_left N hN _ f i j hi1 hi2 hj1 hj2,
      cellPartial_down N hN _ f i j hi1 hi2 hj1 hj2]

/-- Witness for C3: the diffusion characterization instantiated at N = 3,
it = 2, b = 0, a = 1, on fixture grids, at the interior cell (1, 1). -/
theorem diffuse_iterates_gauss_seidel_witness :
    diffuse 3 2 0 wGrid wHuge (1/10) (1/2) =
      (fun w => setBoundary 3 0
        (oneSweep 3 ((1/2) * (1/10) * ((3 : ℚ) - 2) * ((3 : ℚ) - 2)) wHuge w))^[2] wGrid ∧
    oneSweep 3 1 wHuge wGrid (IX 3 1 1) =
      (wHuge (IX 3 1 1) +
        1 * (wGrid (IX 3 (1 + 1) 1) + oneSweep 3 1 wHuge wGrid (IX 3 (1 - 1) 1) +
             wGrid (IX 3 1 (1 + 1)) + oneSweep 3 1 wHuge wGrid (IX 3 1 (1 - 1)))) /
        (1 + 4 * 1) :=
  diffuse_iterates_gauss_seidel 3 2 0 (by norm_num) wGrid wHuge (1/10) (1/2) 1 wGrid 1 1
    (by norm_num) (by norm_num) (by norm_num) (by norm_num)

/-- Claim C4: the velocity sub-step runs, in order: diffuse u and diffuse v
independently with the viscosity rate, project, advect u and advect v
sampling the diffused-and-projected (pre-advection) velocity field both as
the transported quantity and as the transporting field (self-advection),
project again, and finally multiply every u and v cell by
velocityDissipation.  The let-bound stages name the pipeline exactly as the
spec orders it; the equation certifies that `velocityStep` factors this way
(the `p`/`div` components are the scratch arrays the source reuses as
advection destinations and second-project scratch). -/
theorem velocityStep_pipeline_order (s : FluidSim) :
    velocityStep s =
      (let diffusedU :=
        diffuse s.size s.params.iterations 1 s.u_prev s.u s.params.viscosity s.params.dt
       let diffusedV :=
        diffuse s.size s.params.iterations 2 s.v_prev s.v s.params.viscosity s.params.dt
       let projected1 := project s.size s.params.iterations diffusedU diffusedV s.u s.v
       let advectedU :=
        advect s.size 1 projected1.p projected1.velX projected1.velX projected1.velY
          s.params.dt
       let advectedV :=
        advect s.size 2 projected1.div projected1.velY projected1.velX projected1.velY
          s.params.dt
       let projected2 :=
        project s.size s.params.iterations advectedU advectedV projected1.velX projected1.velY
       { s with
         u := scaleField s.size s.params.velocityDissipation projected2.velX
         v := scaleField s.size s.params.velocityDissipation projected2.velY
         u_prev := projected2.p
         v_prev := projected2.div }) := rfl

/-! The dissipation loop in closed form. -/

theorem iterScale_apply (k : ℚ) (f : Grid) (m n : Nat) :
    iterUp0 (fun w i => upd w i (w i * k)) f m n = if n < m then f n * k else f n := by
  induction m with
  | zero => simp [iterUp0]
  | succ m ih =>
    simp only [iterUp0]
    by_cases h : n = m
    · subst h
      rw [upd_self, ih, if_neg (Nat.lt_irrefl n), if_pos (Nat.lt_succ_self n)]
    · rw [upd_other h, ih]
      by_cases h2 : n < m
      · rw [if_pos h2, if_pos (by omega)]
      · rw [if_neg h2, if_neg (by omega)]

theorem scaleField_apply (N : Nat) (k : ℚ) (f : Grid) (n : Nat) :
    scaleField N k f n = if n < N * N then f n * k else f n := by
  unfold scaleField
  exact iterScale_apply k f (N * N) n

theorem scaleField_one (N : Nat) (f : Grid) : scaleField N 1 f = f := by
  funext n
  rw [scaleField_apply]
  split_ifs with h
  · exact mul_one _
  · rfl

theorem totalDensity_scale (N : Nat) (k : ℚ) (f : Grid) :
    totalDensity N (scaleField N k f) = k * totalDensity N f := by
  unfold totalDensity
  have hmap : (List.range (N * N)).map (scaleField N k f) =
      (List.range (N * N)).map (fun n => f n * k) := by
    apply List.map_congr_left
    intro n hn
    rw [scaleField_apply, if_pos (List.mem_range.1 hn)]
  rw [hmap]
  have hsum : ∀ l : List Nat, (l.map (fun n => f n * k)).sum = k * (l.map f).sum := by
    intro l
    induction l with
    | nil => simp
    | cons a t ih =>
      simp only [List.map_cons, List.sum_cons, ih]
      ring
  exact hsum _

/-- Counterexample to Claim C5 as stated: a concrete N = 3 state with zero
velocity, no addForce calls and dissipation 99/100 ≤ 1, for which one
`update` strictly increases the total density summed over all N·N cells
(the kind-0 boundary pass copies the interior mass onto the border cells
before dissipation is applied). -/
theorem step_total_density_increases :
    totalDensity 3 ((update cexC5).density) > totalDensity 3 cexC5.density := by decide

/-- Claim C5 (amended): the final dissipation stage of `densityStep` scales
the total density by exactly densityDissipation, so that stage never
increases the total when 0 ≤ densityDissipation ≤ 1 and the post-advection
total is non-negative; the earlier diffuse/advect stages, however, can
increase the total (boundary mirroring duplicates interior mass onto border
cells), so a full step may increase Σ density, as the counterexample shows. -/
theorem densityStep_dissipation_scales (s : FluidSim)
    (hk1 : s.params.densityDissipation ≤ 1)
    (hT : 0 ≤ totalDensity s.size (densityAdvStage s)) :
    totalDensity s.size ((densityStep s).density) =
      s.params.densityDissipation * totalDensity s.size (densityAdvStage s) ∧
    totalDensity s.size ((densityStep s).density) ≤
      totalDensity s.size (densityAdvStage s) := by
  have h1 : (densityStep s).density =
      scaleField s.size s.params.densityDissipation (densityAdvStage s) := rfl
  rw [h1, totalDensity_scale]
  refine ⟨rfl, ?_⟩
  calc s.params.densityDissipation * totalDensity s.size (densityAdvStage s)
      ≤ 1 * totalDensity s.size (densityAdvStage s) :=
        mul_le_mul_of_nonneg_right hk1 hT
    _ = totalDensity s.size (densityAdvStage s) := one_mul _

/-- Witness for the amended C5: the dissipation-stage bound instantiated at
the concrete state `cexC8` (whose density field is zero). -/
theorem densityStep_dissipation_scales_witness :
    totalDensity cexC8.size ((densityStep cexC8).density) =
      cexC8.params.densityDissipation * totalDensity cexC8.size (densityAdvStage cexC8) ∧
    totalDensity cexC8.size ((densityStep cexC8).density) ≤
      totalDensity cexC8.size (densityAdvStage cexC8) :=
  densityStep_dissipation_scales cexC8 (by decide) (by decide)

/-- Counterexample to Claim C8 as stated: with densityDissipation =
velocityDissipation = 99/100 and otherwise identical parameters and state,
one step of the tunable variant differs from one step of the fixed variant
on the u array (the fixed variant applies no velocity dissipation at all). -/
theorem updateFixed_differs_at_dissipation_099 :
    cexC8.params.densityDissipation = 99/100 ∧
    cexC8.params.velocityDissipation = 99/100 ∧
    (update cexC8).u (IX 3 1 1) ≠ (updateFixed cexC8).u (IX 3 1 1) := by decide

/-- Claim C8 (amended): the fixed-0.99 variant is the special case of the
tunable variant with densityDissipation = 99/100 and velocityDissipation =
1 (not 99/100): for every state with those parameter values, one update of
the tunable variant equals one update of the fixed variant exactly, on
every field. -/
theorem updateFixed_matches_update (s : FluidSim)
    (hv : s.params.velocityDissipation = 1)
    (hd : s.params.densityDissipation = 99/100) :
    update s = updateFixed s := by
  have hvel : velocityStep s = velocityStepFixed s := by
    simp only [velocityStep, velocityStepFixed]
    rw [hv, scaleField_one, scaleField_one]
  have hdd : (velocityStepFixed s).params.densityDissipation = 99/100 := hd
  simp only [update, updateFixed, densityStep, densityStepFixed]
  rw [hvel, hdd]

/-- Witness for the amended C8 at the concrete state `wC8`. -/
theorem updateFixed_matches_update_witness : update wC8 = updateFixed wC8 :=
  updateFixed_matches_update wC8 rfl rfl

/-- Counterexample to Claim C6 as stated: the constant non-zero velocity
field (u ≡ 1, v ≡ 0) on the 4×4 grid has interior divergence magnitude 0;
after `project` (4 iterations) the recomputed interior divergence magnitude
is positive — the final kind-1 boundary reflection introduces divergence —
so it is not smaller than before. -/
theorem project_divergence_not_always_reduced :
    cexC6u (IX 4 1 1) ≠ 0 ∧
    divMagnitude 4 cexC6u wZero = 0 ∧
    0 < divMagnitude 4 (project 4 4 cexC6u wZero wZero wZero).velX
          (project 4 4 cexC6u wZero wZero wZero).velY ∧
    ¬ (divMagnitude 4 (project 4 4 cexC6u wZero wZero wZero).velX
          (project 4 4 cexC6u wZero wZero wZero).velY <
        divMagnitude 4 cexC6u wZero) := by decide

/-- Claim C6 (amended): `project` does reduce the interior divergence
magnitude on divergent inputs — verified on a concrete non-zero divergent
velocity field (a unit x-velocity at cell (2,1) of the 3×3 grid, 4 solver
iterations), whose interior divergence magnitude drops from 1/6 to 0 — but
not on every non-zero input: an already divergence-free field can leave
`project` with strictly larger divergence (see the counterexample). -/
theorem project_divergence_reduced_on_divergent_input :
    cexC6v (IX 3 2 1) ≠ 0 ∧
    divMagnitude 3 cexC6v wZero = 1/6 ∧
    divMagnitude 3 (project 3 4 cexC6v wZero wZero wZero).velX
        (project 3 4 cexC6v wZero wZero wZero).velY = 0 ∧
    divMagnitude 3 (project 3 4 cexC6v wZero wZero wZero).velX
        (project 3 4 cexC6v wZero wZero wZero).velY < divMagnitude 3 cexC6v wZero := by
  decide

/-- Counterexample to Claim C9 as stated: constructing with size 0 does not
fail fast and is not special-cased — the constructor records size 0,
installs the default parameters (forceRadius = 0/20 = 0) and allocates the
zero-length fields, exactly as it would for a valid size. -/
theorem create_accepts_size_zero :
    (create 0 (fun _ => false) (fun _ => 0)).size = 0 ∧
    (create 0 (fun _ => false) (fun _ => 0)).params.forceRadius = 0 ∧
    (create 0 (fun _ => false) (fun _ => 0)).density 0 = 0 := by decide

/-- Claim C9 (amended): the constructor performs no size validation at all:
every size — including 0 and other sizes below 3 — takes the same
construction path, recording the size as given, installing the default
parameters (forceRadius = size/20) and zero-initialising the fields with
the random density seeding; no rejection or special-casing happens at
construction time. -/
theorem create_no_validation (size : Nat) (coin : Nat → Bool) (val : Nat → ℚ) :
    (create size coin val).size = size ∧
    (create size coin val).params = defaultParams size ∧
    (create size coin val).u = (fun _ => 0) ∧
    (create size coin val).v = (fun _ => 0) ∧
    (create size coin val).density =
      (fun n => if n < size * size ∧ coin n then val n * 50 + 50 else 0) :=
  ⟨rfl, rfl, rfl, rfl, rfl⟩

/-! Facts about the `addForce` offset loops and body. -/

theorem offCount_nat (m : Nat) : offCount (m : ℚ) = 2 * m + 1 := by
  unfold offCount
  rw [if_neg (not_lt.2 (by positivity))]
  have h2 : (2 : ℚ) * (m : ℚ) = ((2 * m : ℕ) : ℚ) := by push_cast; ring
  rw [h2, Int.floor_natCast, Int.toNat_natCast]

theorem offVal_nat (m k : Nat) : offVal (m : ℚ) k = (((k : ℤ) - (m : ℤ) : ℤ) : ℚ) := by
  unfold offVal
  push_cast
  ring

theorem clampQ_int (Ns g : Nat) (z : ℤ) :
    min ((Ns : ℚ) - 1) (max 0 (((g : ℤ) : ℚ) + ((z : ℤ) : ℚ))) =
      ((min ((Ns : ℤ) - 1) (max 0 ((g : ℤ) + z)) : ℤ) : ℚ) := by
  push_cast
  rfl

theorem clampZ_mem (B t : ℤ) (hB : 0 ≤ B) :
    0 ≤ min B (max 0 t) ∧ min B (max 0 t) ≤ B :=
  ⟨le_min hB (le_max_left 0 t), min_le_left _ _⟩

theorem clampZ_dist (B g t : ℤ) (h0 : 0 ≤ g) (hB : g ≤ B) :
    (min B (max 0 (g + t)) - g) ^ 2 ≤ t ^ 2 := by
  rcases le_total (g + t) 0 with h | h
  · rw [max_eq_left h, min_eq_right (h0.trans hB)]
    have hg : (0 - g) ^ 2 = g ^ 2 := by ring
    rw [hg]
    nlinarith [sq_nonneg (g + t), mul_nonneg h0 (neg_nonneg.2 h)]
  · rw [max_eq_right h]
    rcases le_total (g + t) B with h2 | h2
    · rw [min_eq_right h2]
      have hgt : g + t - g = t := by ring
      rw [hgt]
    · rw [min_eq_left h2]
      have hBg : 0 ≤ B - g := by omega
      have htB : B - g ≤ t := by omega
      nlinarith [mul_nonneg hBg (sub_nonneg.2 htB)]

theorem forceBody_frame (sq : ℚ → ℚ) (gX gY : ℤ) (aX aY : ℚ) (s2 : FluidSim) (i j : ℚ) :
    (forceBody sq gX gY aX aY s2 i j).size = s2.size ∧
    (forceBody sq gX gY aX aY s2 i j).params = s2.params := by
  simp only [forceBody]
  split_ifs <;> exact ⟨rfl, rfl⟩

theorem forceBody_preserves (sq : ℚ → ℚ) (gX gY : ℤ) (aX aY : ℚ) (s2 : FluidSim)
    (i j : ℚ) (n : Nat)
    (h : ¬ (s2.params.forceRadius < sq (i * i + j * j)) →
      (⌊min ((s2.size : ℚ) - 1) (max 0 ((gX : ℚ) + i))⌋ +
        ⌊min ((s2.size : ℚ) - 1) (max 0 ((gY : ℚ) + j))⌋ * (s2.size : ℤ)).toNat ≠ n) :
    (forceBody sq gX gY aX aY s2 i j).u n = s2.u n ∧
    (forceBody sq gX gY aX aY s2 i j).v n = s2.v n ∧
    (forceBody sq gX gY aX aY s2 i j).density n = s2.density n := by
  simp only [forceBody]
  split_ifs with h1 h2
  · exact ⟨rfl, rfl, rfl⟩
  · exact ⟨upd_other (Ne.symm (h h1)) _ _, upd_other (Ne.symm (h h1)) _ _,
      upd_other (Ne.symm (h h1)) _ _⟩
  · exact ⟨rfl, rfl, rfl⟩

theorem iterUp0_invariant {α : Type} (P : α → Prop) (step : α → Nat → α) (s : α)
    (n : Nat) (h0 : P s) (hstep : ∀ a k, k < n → P a → P (step a k)) :
    P (iterUp0 step s n) := by
  induction n with
  | zero => exact h0
  | succ n ih =>
    exact hstep _ n (by omega) (ih (fun a k hk => hstep a k (by omega)))

theorem iterUp0_succ {α : Type} (step : α → Nat → α) (s : α) (k : Nat) :
    iterUp0 step s (k + 1) = step (iterUp0 step s k) k := rfl

theorem offVal_self (m : Nat) : offVal (m : ℚ) m = 0 := by
  simp [offVal]

theorem floor_clamp_off (Ns g m k : Nat) :
    ⌊min ((Ns : ℚ) - 1) (max 0 (((g : ℤ) : ℚ) + offVal (m : ℚ) k))⌋ =
      min ((Ns : ℤ) - 1) (max 0 ((g : ℤ) + ((k : ℤ) - (m : ℤ)))) := by
  rw [offVal_nat, clampQ_int]
  exact Int.floor_intCast _

theorem forceBody_center (sq : ℚ → ℚ) (aX aY : ℚ) (s2 : FluidSim)
    (hsq0 : sq 0 = 0) (m : Nat) (hm : 1 ≤ m) (hr : s2.params.forceRadius = (m : ℚ))
    (gx gy : Nat) (hgxN : gx < s2.size) (hgyN : gy < s2.size) :
    (forceBody sq (gx : ℤ) (gy : ℤ) aX aY s2 0 0).u (IX s2.size gx gy) =
      s2.u (IX s2.size gx gy) + aX ∧
    (forceBody sq (gx : ℤ) (gy : ℤ) aX aY s2 0 0).v (IX s2.size gx gy) =
      s2.v (IX s2.size gx gy) + aY ∧
    (forceBody sq (gx : ℤ) (gy : ℤ) aX aY s2 0 0).density (IX s2.size gx gy) =
      s2.density (IX s2.size gx gy) + 100 := by
  have hgxQ : ((gx : ℚ)) + 1 ≤ (s2.size : ℚ) := by exact_mod_cast hgxN
  have hgyQ : ((gy : ℚ)) + 1 ≤ (s2.size : ℚ) := by exact_mod_cast hgyN
  have ht : (0 : ℚ) * 0 + 0 * 0 = 0 := by ring
  have hfx : ⌊min ((s2.size : ℚ) - 1) (max 0 (((gx : ℤ) : ℚ) + 0))⌋ = (gx : ℤ) := by
    rw [add_zero, max_eq_right (by positivity),
      min_eq_right (by push_cast; linarith)]
    push_cast
    exact Int.floor_natCast gx
  have hfy : ⌊min ((s2.size : ℚ) - 1) (max 0 (((gy : ℤ) : ℚ) + 0))⌋ = (gy : ℤ) := by
    rw [add_zero, max_eq_right (by positivity),
      min_eq_right (by push_cast; linarith)]
    push_cast
    exact Int.floor_natCast gy
  have hidx : (gx : ℤ) + (gy : ℤ) * (s2.size : ℤ) = ((IX s2.size gx gy : ℕ) : ℤ) := by
    simp only [IX]
    push_cast
    ring
  simp only [forceBody, ht, hsq0, hr]
  rw [if_neg (not_lt.2 (by positivity)), hfx, hfy, hidx,
    if_pos ⟨by positivity, by exact_mod_cast IX_lt hgxN hgyN⟩, Int.toNat_natCast]
  refine ⟨?_, ?_, ?_⟩ <;>
    · show upd _ (IX s2.size gx gy) _ (IX s2.size gx gy) = _
      rw [upd_self, zero_div, sub_zero, mul_one]

theorem forceBody_far_step (s : FluidSim) (sq : ℚ → ℚ) (m : Nat)
    (hsq : ∀ t : ℚ, 0 ≤ t → ((m : ℚ) < sq t ↔ (m : ℚ) * (m : ℚ) < t))
    (hr : s.params.forceRadius = (m : ℚ))
    (gx gy ci cj : Nat) (hgxN : gx < s.size) (hgyN : gy < s.size)
    (hci : ci < s.size) (hcj : cj < s.size)
    (hfar : (m : ℚ) * (m : ℚ) < ((ci : ℚ) - (gx : ℚ)) ^ 2 + ((cj : ℚ) - (gy : ℚ)) ^ 2)
    (aX aY : ℚ) (s2 : FluidSim) (hsize : s2.size = s.size)
    (hparams : s2.params = s.params) (ki kj : Nat) :
    (forceBody sq (gx : ℤ) (gy : ℤ) aX aY s2 (offVal (m : ℚ) ki)
      (offVal (m : ℚ) kj)).u (IX s.size ci cj) = s2.u (IX s.size ci cj) ∧
    (forceBody sq (gx : ℤ) (gy : ℤ) aX aY s2 (offVal (m : ℚ) ki)
      (offVal (m : ℚ) kj)).v (IX s.size ci cj) = s2.v (IX s.size ci cj) ∧
    (forceBody sq (gx : ℤ) (gy : ℤ) aX aY s2 (offVal (m : ℚ) ki)
      (offVal (m : ℚ) kj)).density (IX s.size ci cj) = s2.density (IX s.size ci cj) := by
  apply forceBody_preserves
  intro hskip
  rw [hparams, hr] at hskip
  have hi2 : offVal (m : ℚ) ki * offVal (m : ℚ) ki + offVal (m : ℚ) kj * offVal (m : ℚ) kj =
      (((((ki : ℤ) - m) ^ 2 + ((kj : ℤ) - m) ^ 2 : ℤ)) : ℚ) := by
    rw [offVal_nat, offVal_nat]
    push_cast
    ring
  have hts : (0 : ℚ) ≤ offVal (m : ℚ) ki * offVal (m : ℚ) ki +
      offVal (m : ℚ) kj * offVal (m : ℚ) kj := by
    rw [hi2]
    positivity
  have hdisc := fun hc => hskip ((hsq _ hts).2 hc)
  rw [hi2] at hdisc
  have hdiscZ : ((ki : ℤ) - m) ^ 2 + ((kj : ℤ) - m) ^ 2 ≤ (m : ℤ) * m := by
    have := not_lt.1 hdisc
    exact_mod_cast this
  have hfarZ : (m : ℤ) * m < ((ci : ℤ) - gx) ^ 2 + ((cj : ℤ) - gy) ^ 2 := by
    exact_mod_cast hfar
  rw [hsize, floor_clamp_off s.size gx m ki, floor_clamp_off s.size gy m kj]
  have hB : (0 : ℤ) ≤ (s.size : ℤ) - 1 := by omega
  obtain ⟨hpx0, hpxB⟩ := clampZ_mem ((s.size : ℤ) - 1) ((gx : ℤ) + ((ki : ℤ) - m)) hB
  obtain ⟨hpy0, hpyB⟩ := clampZ_mem ((s.size : ℤ) - 1) ((gy : ℤ) + ((kj : ℤ) - m)) hB
  have hdx := clampZ_dist ((s.size : ℤ) - 1) (gx : ℤ) ((ki : ℤ) - m) (by positivity) (by omega)
  have hdy := clampZ_dist ((s.size : ℤ) - 1) (gy : ℤ) ((kj : ℤ) - m) (by positivity) (by omega)
  obtain ⟨px', hpx'⟩ : ∃ px' : Nat,
      min ((s.size : ℤ) - 1) (max 0 ((gx : ℤ) + ((ki : ℤ) - m))) = (px' : ℤ) :=
    ⟨_, (Int.toNat_of_nonneg hpx0).symm⟩
  obtain ⟨py', hpy'⟩ : ∃ py' : Nat,
      min ((s.size : ℤ) - 1) (max 0 ((gy : ℤ) + ((kj : ℤ) - m))) = (py' : ℤ) :=
    ⟨_, (Int.toNat_of_nonneg hpy0).symm⟩
  rw [hpx', hpy']
  have hpxN : px' < s.size := by omega
  have hpyN : py' < s.size := by omega
  have hsum : ((px' : ℤ)) + (py' : ℤ) * (s.size : ℤ) = ((IX s.size px' py' : ℕ) : ℤ) := by
    simp only [IX]
    push_cast
    ring
  rw [hsum, Int.toNat_natCast]
  apply IX_ne hpxN hci
  by_contra hcon
  push_neg at hcon
  obtain ⟨hx, hy⟩ := hcon
  rw [hpx'] at hdx
  rw [hpy'] at hdy
  rw [hx] at hdx
  rw [hy] at hdy
  nlinarith [hdx, hdy, hdiscZ, hfarZ]

theorem forceBody_center_miss (s : FluidSim) (sq : ℚ → ℚ) (m : Nat)
    (hr : s.params.forceRadius = (m : ℚ)) (gx gy : Nat)
    (hnc1 : m ≤ gx) (hnc2 : gx + m < s.size) (hnc3 : m ≤ gy) (hnc4 : gy + m < s.size)
    (aX aY : ℚ) (ki kj : Nat) (hki : ki < 2 * m + 1) (hkj : kj < 2 * m + 1)
    (hne : ki ≠ m ∨ kj ≠ m)
    (s2 : FluidSim) (hsize : s2.size = s.size) (hparams : s2.params = s.params) :
    (forceBody sq (gx : ℤ) (gy : ℤ) aX aY s2 (offVal (m : ℚ) ki)
      (offVal (m : ℚ) kj)).u (IX s.size gx gy) = s2.u (IX s.size gx gy) ∧
    (forceBody sq (gx : ℤ) (gy : ℤ) aX aY s2 (offVal (m : ℚ) ki)
      (offVal (m : ℚ) kj)).v (IX s.size gx gy) = s2.v (IX s.size gx gy) ∧
    (forceBody sq (gx : ℤ) (gy : ℤ) aX aY s2 (offVal (m : ℚ) ki)
      (offVal (m : ℚ) kj)).density (IX s.size gx gy) = s2.density (IX s.size gx gy) := by
  apply forceBody_preserves
  intro _
  rw [hsize, floor_clamp_off s.size gx m ki, floor_clamp_off s.size gy m kj]
  have hpx : min ((s.size : ℤ) - 1) (max 0 ((gx : ℤ) + ((ki : ℤ) - m))) =
      (gx : ℤ) + ((ki : ℤ) - m) := by
    rw [max_eq_right (by omega), min_eq_right (by omega)]
  have hpy : min ((s.size : ℤ) - 1) (max 0 ((gy : ℤ) + ((kj : ℤ) - m))) =
      (gy : ℤ) + ((kj : ℤ) - m) := by
    rw [max_eq_right (by omega), min_eq_right (by omega)]
  rw [hpx, hpy]
  obtain ⟨px', hpx'⟩ : ∃ px' : Nat, (gx : ℤ) + ((ki : ℤ) - m) = (px' : ℤ) :=
    ⟨_, (Int.toNat_of_nonneg (by omega)).symm⟩
  obtain ⟨py', hpy'⟩ : ∃ py' : Nat, (gy : ℤ) + ((kj : ℤ) - m) = (py' : ℤ) :=
    ⟨_, (Int.toNat_of_nonneg (by omega)).symm⟩
  rw [hpx', hpy']
  have hsum : ((px' : ℤ)) + (py' : ℤ) * (s.size : ℤ) = ((IX s.size px' py' : ℕ) : ℤ) := by
    simp only [IX]
    push_cast
    ring
  rw [hsum, Int.toNat_natCast]
  apply IX_ne (by omega) (by omega)
  rcases hne with hne | hne
  · exact Or.inl (by omega)
  · exact Or.inr (by omega)

theorem addForce_inner_hit (s : FluidSim) (sq : ℚ → ℚ) (m : Nat) (hm : 1 ≤ m)
    (hr : s.params.forceRadius = (m : ℚ)) (hsq0 : sq 0 = 0) (gx gy : Nat)
    (hnc1 : m ≤ gx) (hnc2 : gx + m < s.size) (hnc3 : m ≤ gy) (hnc4 : gy + m < s.size)
    (aX aY : ℚ) (s2 : FluidSim) (hsize : s2.size = s.size) (hparams : s2.params = s.params)
    (K2 : Nat) (hK2 : K2 ≤ 2 * m + 1) :
    (iterUp0 (fun s3 kj => forceBody sq (gx : ℤ) (gy : ℤ) aX aY s3 (offVal (m : ℚ) m)
        (offVal (m : ℚ) kj)) s2 K2).size = s.size ∧
    (iterUp0 (fun s3 kj => forceBody sq (gx : ℤ) (gy : ℤ) aX aY s3 (offVal (m : ℚ) m)
        (offVal (m : ℚ) kj)) s2 K2).params = s.params ∧
    (iterUp0 (fun s3 kj => forceBody sq (gx : ℤ) (gy : ℤ) aX aY s3 (offVal (m : ℚ) m)
        (offVal (m : ℚ) kj)) s2 K2).u (IX s.size gx gy) =
      s2.u (IX s.size gx gy) + (if m < K2 then aX else 0) ∧
    (iterUp0 (fun s3 kj => forceBody sq (gx : ℤ) (gy : ℤ) aX aY s3 (offVal (m : ℚ) m)
        (offVal (m : ℚ) kj)) s2 K2).v (IX s.size gx gy) =
      s2.v (IX s.size gx gy) + (if m < K2 then aY else 0) ∧
    (iterUp0 (fun s3 kj => forceBody sq (gx : ℤ) (gy : ℤ) aX aY s3 (offVal (m : ℚ) m)
        (offVal (m : ℚ) kj)) s2 K2).density (IX s.size gx gy) =
      s2.density (IX s.size gx gy) + (if m < K2 then (100 : ℚ) else 0) := by
  induction K2 with
  | zero => exact ⟨hsize, hparams, by simp [iterUp0], by simp [iterUp0], by simp [iterUp0]⟩
  | succ K2 ih =>
    obtain ⟨ihs, ihp, ihu, ihv, ihd⟩ := ih (by omega)
    rw [iterUp0_succ]
    by_cases hK2m : K2 = m
    · set P := iterUp0 (fun s3 kj => forceBody sq (gx : ℤ) (gy : ℤ) aX aY s3
        (offVal (m : ℚ) m) (offVal (m : ℚ) kj)) s2 K2 with hP
      have harg : offVal (m : ℚ) K2 = 0 := by rw [hK2m]; exact offVal_self m
      rw [offVal_self, harg]
      have hc := forceBody_center sq aX aY P hsq0 m hm (by rw [ihp]; exact hr) gx gy
        (by rw [ihs]; omega) (by rw [ihs]; omega)
      rw [ihs] at hc
      refine ⟨(forceBody_frame _ _ _ _ _ _ _ _).1.trans ihs,
        (forceBody_frame _ _ _ _ _ _ _ _).2.trans ihp, ?_, ?_, ?_⟩
      · rw [hc.1, ihu, if_neg (show ¬ m < K2 by omega), add_zero,
          if_pos (show m < K2 + 1 by omega)]
      · rw [hc.2.1, ihv, if_neg (show ¬ m < K2 by omega), add_zero,
          if_pos (show m < K2 + 1 by omega)]
      · rw [hc.2.2, ihd, if_neg (show ¬ m < K2 by omega), add_zero,
          if_pos (show m < K2 + 1 by omega)]
    · have hmiss := forceBody_center_miss s sq m hr gx gy hnc1 hnc2 hnc3 hnc4 aX aY
        m K2 (by omega) (by omega) (Or.inr hK2m) _ ihs ihp
      refine ⟨(forceBody_frame _ _ _ _ _ _ _ _).1.trans ihs,
        (forceBody_frame _ _ _ _ _ _ _ _).2.trans ihp, ?_, ?_, ?_⟩
      · rw [hmiss.1, ihu]
        by_cases hmK : m < K2
        · rw [if_pos hmK, if_pos (by omega)]
        · rw [if_neg hmK, if_neg (by omega)]
      · rw [hmiss.2.1, ihv]
        by_cases hmK : m < K2
        · rw [if_pos hmK, if_pos (by omega)]
        · rw [if_neg hmK, if_neg (by omega)]
      · rw [hmiss.2.2, ihd]
        by_cases hmK : m < K2
        · rw [if_pos hmK, if_pos (by omega)]
        · rw [if_neg hmK, if_neg (by omega)]

theorem addForce_outer_hit (s : FluidSim) (sq : ℚ → ℚ) (m : Nat) (hm : 1 ≤ m)
    (hr : s.params.forceRadius = (m : ℚ)) (hsq0 : sq 0 = 0) (gx gy : Nat)
    (hnc1 : m ≤ gx) (hnc2 : gx + m < s.size) (hnc3 : m ≤ gy) (hnc4 : gy + m < s.size)
    (aX aY : ℚ) (K : Nat) (hK : K ≤ 2 * m + 1) :
    (iterUp0 (fun s1 ki => iterUp0 (fun s3 kj => forceBody sq (gx : ℤ) (gy : ℤ) aX aY s3
        (offVal (m : ℚ) ki) (offVal (m : ℚ) kj)) s1 (2 * m + 1)) s K).size = s.size ∧
    (iterUp0 (fun s1 ki => iterUp0 (fun s3 kj => forceBody sq (gx : ℤ) (gy : ℤ) aX aY s3
        (offVal (m : ℚ) ki) (offVal (m : ℚ) kj)) s1 (2 * m + 1)) s K).params = s.params ∧
    (iterUp0 (fun s1 ki => iterUp0 (fun s3 kj => forceBody sq (gx : ℤ) (gy : ℤ) aX aY s3
        (offVal (m : ℚ) ki) (offVal (m : ℚ) kj)) s1 (2 * m + 1)) s K).u (IX s.size gx gy) =
      s.u (IX s.size gx gy) + (if m < K then aX else 0) ∧
    (iterUp0 (fun s1 ki => iterUp0 (fun s3 kj => forceBody sq (gx : ℤ) (gy : ℤ) aX aY s3
        (offVal (m : ℚ) ki) (offVal (m : ℚ) kj)) s1 (2 * m + 1)) s K).v (IX s.size gx gy) =
      s.v (IX s.size gx gy) + (if m < K then aY else 0) ∧
    (iterUp0 (fun s1 ki => iterUp0 (fun s3 kj => forceBody sq (gx : ℤ) (gy : ℤ) aX aY s3
        (offVal (m : ℚ) ki) (offVal (m : ℚ) kj)) s1 (2 * m + 1)) s K).density
        (IX s.size gx gy) =
      s.density (IX s.size gx gy) + (if m < K then (100 : ℚ) else 0) := by
  induction K with
  | zero => exact ⟨rfl, rfl, by simp [iterUp0], by simp [iterUp0], by simp [iterUp0]⟩
  | succ K ih =>
    obtain ⟨ihs, ihp, ihu, ihv, ihd⟩ := ih (by omega)
    rw [iterUp0_succ]
    by_cases hKm : K = m
    · set P := iterUp0 (fun s1 ki => iterUp0 (fun s3 kj => forceBody sq (gx : ℤ) (gy : ℤ)
        aX aY s3 (offVal (m : ℚ) ki) (offVal (m : ℚ) kj)) s1 (2 * m + 1)) s K with hP
      have harg : offVal (m : ℚ) K = offVal (m : ℚ) m := by rw [hKm]
      rw [harg]
      have hin := addForce_inner_hit s sq m hm hr hsq0 gx gy hnc1 hnc2 hnc3 hnc4 aX aY
        P ihs ihp (2 * m + 1) (le_refl _)
      refine ⟨hin.1, hin.2.1, ?_, ?_, ?_⟩
      · rw [hin.2.2.1, if_pos (show m < 2 * m + 1 by omega), ihu,
          if_neg (show ¬ m < K by omega), add_zero, if_pos (show m < K + 1 by omega)]
      · rw [hin.2.2.2.1, if_pos (show m < 2 * m + 1 by omega), ihv,
          if_neg (show ¬ m < K by omega), add_zero, if_pos (show m < K + 1 by omega)]
      · rw [hin.2.2.2.2, if_pos (show m < 2 * m + 1 by omega), ihd,
          if_neg (show ¬ m < K by omega), add_zero, if_pos (show m < K + 1 by omega)]
    · have hin := iterUp0_invariant (fun s3 =>
          s3.size = s.size ∧ s3.params = s.params ∧
          s3.u (IX s.size gx gy) =
            (iterUp0 (fun s1 ki => iterUp0 (fun s3 kj => forceBody sq (gx : ℤ) (gy : ℤ)
              aX aY s3 (offVal (m : ℚ) ki) (offVal (m : ℚ) kj)) s1 (2 * m + 1)) s K).u
              (IX s.size gx gy) ∧
          s3.v (IX s.size gx gy) =
            (iterUp0 (fun s1 ki => iterUp0 (fun s3 kj => forceBody sq (gx : ℤ) (gy : ℤ)
              aX aY s3 (offVal (m : ℚ) ki) (offVal (m : ℚ) kj)) s1 (2 * m + 1)) s K).v
              (IX s.size gx gy) ∧
          s3.density (IX s.size gx gy) =
            (iterUp0 (fun s1 ki => iterUp0 (fun s3 kj => forceBody sq (gx : ℤ) (gy : ℤ)
              aX aY s3 (offVal (m : ℚ) ki) (offVal (m : ℚ) kj)) s1 (2 * m + 1)) s K).density
              (IX s.size gx gy))
        (fun s3 kj => forceBody sq (gx : ℤ) (gy : ℤ) aX aY s3 (offVal (m : ℚ) K)
          (offVal (m : ℚ) kj)) _ (2 * m + 1) ⟨ihs, ihp, rfl, rfl, rfl⟩ ?_
      · obtain ⟨hs3, hp3, hu3, hv3, hd3⟩ := hin
        refine ⟨hs3, hp3, ?_, ?_, ?_⟩
        · rw [hu3, ihu]
          by_cases hmK : m < K
          · rw [if_pos hmK, if_pos (by omega)]
          · rw [if_neg hmK, if_neg (by omega)]
        · rw [hv3, ihv]
          by_cases hmK : m < K
          · rw [if_pos hmK, if_pos (by omega)]
          · rw [if_neg hmK, if_neg (by omega)]
        · rw [hd3, ihd]
          by_cases hmK : m < K
          · rw [if_pos hmK, if_pos (by omega)]
          · rw [if_neg hmK, if_neg (by omega)]
      · intro a kj hkj ha
        obtain ⟨has, hap, hau, hav, had⟩ := ha
        have hmiss := forceBody_center_miss s sq m hr gx gy hnc1 hnc2 hnc3 hnc4 aX aY
          K kj (by omega) (by omega) (Or.inl hKm) a has hap
        exact ⟨(forceBody_frame _ _ _ _ _ _ _ _).1.trans has,
          (forceBody_frame _ _ _ _ _ _ _ _).2.trans hap,
          hmiss.1.trans hau, hmiss.2.1.trans hav, hmiss.2.2.trans had⟩

/-- Claim C7 (amended): for a positive integer force radius m
(`forceRadius = m`) and a target center cell (gx, gy) lying inside the
grid: (a) every cell of u, v and density whose squared Euclidean distance
from the center exceeds m² keeps exactly its prior value — including when
the disc overlaps the grid edge and is clamped; and (b) when the disc fits
without clamping (m ≤ gx, gx + m < N, m ≤ gy, gy + m < N), the center cell
receives exactly the maximal influence-1 contribution: the full
amountX·forceMultiplier, amountY·forceMultiplier and 100 amounts.  `sq`
stands for `Math.sqrt` and is assumed to agree with the real square root
exactly where the code's decisions depend on it: sq 0 = 0, and the disc
test sq t > m is equivalent to t > m² for t ≥ 0.  (As stated originally
the claim is false: with a fractional radius or an off-grid center,
clamping and fractional offsets write to cells farther than the radius —
see the counterexample.) -/
theorem addForce_locality (s : FluidSim) (sq : ℚ → ℚ) (winW winH x y amountX amountY : ℚ)
    (m : Nat) (hm : 1 ≤ m) (hr : s.params.forceRadius = (m : ℚ))
    (hsq : ∀ t : ℚ, 0 ≤ t → ((m : ℚ) < sq t ↔ (m : ℚ) * (m : ℚ) < t))
    (hsq0 : sq 0 = 0)
    (gx gy : Nat) (hgx : gridCoord winW x s.size = (gx : ℤ))
    (hgy : gridCoord winH y s.size = (gy : ℤ))
    (hgxN : gx < s.size) (hgyN : gy < s.size) :
    (∀ ci cj : Nat, ci < s.size → cj < s.size →
      (m : ℚ) * (m : ℚ) < ((ci : ℚ) - (gx : ℚ)) ^ 2 + ((cj : ℚ) - (gy : ℚ)) ^ 2 →
      (addForce s sq winW winH x y amountX amountY).u (IX s.size ci cj) =
        s.u (IX s.size ci cj) ∧
      (addForce s sq winW winH x y amountX amountY).v (IX s.size ci cj) =
        s.v (IX s.size ci cj) ∧
      (addForce s sq winW winH x y amountX amountY).density (IX s.size ci cj) =
        s.density (IX s.size ci cj)) ∧
    (m ≤ gx → gx + m < s.size → m ≤ gy → gy + m < s.size →
      (addForce s sq winW winH x y amountX amountY).u (IX s.size gx gy) =
        s.u (IX s.size gx gy) + amountX * s.params.forceMultiplier ∧
      (addForce s sq winW winH x y amountX amountY).v (IX s.size gx gy) =
        s.v (IX s.size gx gy) + amountY * s.params.forceMultiplier ∧
      (addForce s sq winW winH x y amountX amountY).density (IX s.size gx gy) =
        s.density (IX s.size gx gy) + 100) := by
  have haddF : addForce s sq winW winH x y amountX amountY =
      iterUp0 (fun s1 ki => iterUp0 (fun s2 kj => forceBody sq (gx : ℤ) (gy : ℤ)
        (amountX * s.params.forceMultiplier) (amountY * s.params.forceMultiplier) s2
        (offVal (m : ℚ) ki) (offVal (m : ℚ) kj)) s1 (2 * m + 1)) s (2 * m + 1) := by
    simp only [addForce]
    rw [hgx, hgy, hr, offCount_nat]
  rw [haddF]
  constructor
  · intro ci cj hci hcj hfar
    have hinv := iterUp0_invariant (fun s2 => s2.size = s.size ∧ s2.params = s.params ∧
        s2.u (IX s.size ci cj) = s.u (IX s.size ci cj) ∧
        s2.v (IX s.size ci cj) = s.v (IX s.size ci cj) ∧
        s2.density (IX s.size ci cj) = s.density (IX s.size ci cj))
      (fun s1 ki => iterUp0 (fun s2 kj => forceBody sq (gx : ℤ) (gy : ℤ)
        (amountX * s.params.forceMultiplier) (amountY * s.params.forceMultiplier) s2
        (offVal (m : ℚ) ki) (offVal (m : ℚ) kj)) s1 (2 * m + 1))
      s (2 * m + 1) ⟨rfl, rfl, rfl, rfl, rfl⟩ ?_
    · exact ⟨hinv.2.2.1, hinv.2.2.2.1, hinv.2.2.2.2⟩
    · intro a ki hki ha
      refine iterUp0_invariant (fun s2 => s2.size = s.size ∧ s2.params = s.params ∧
          s2.u (IX s.size ci cj) = s.u (IX s.size ci cj) ∧
          s2.v (IX s.size ci cj) = s.v (IX s.size ci cj) ∧
          s2.density (IX s.size ci cj) = s.density (IX s.size ci cj))
        (fun s2 kj => forceBody sq (gx : ℤ) (gy : ℤ)
          (amountX * s.params.forceMultiplier) (amountY * s.params.forceMultiplier) s2
          (offVal (m : ℚ) ki) (offVal (m : ℚ) kj)) a (2 * m + 1) ha ?_
      intro a2 kj hkj ha2
      obtain ⟨ha2s, ha2p, ha2u, ha2v, ha2d⟩ := ha2
      have hstep := forceBody_far_step s sq m hsq hr gx gy ci cj hgxN hgyN hci hcj hfar
        (amountX * s.params.forceMultiplier) (amountY * s.params.forceMultiplier)
        a2 ha2s ha2p ki kj
      exact ⟨(forceBody_frame _ _ _ _ _ _ _ _).1.trans ha2s,
        (forceBody_frame _ _ _ _ _ _ _ _).2.trans ha2p,
        hstep.1.trans ha2u, hstep.2.1.trans ha2v, hstep.2.2.trans ha2d⟩
  · intro hnc1 hnc2 hnc3 hnc4
    have hout := addForce_outer_hit s sq m hm hr hsq0 gx gy hnc1 hnc2 hnc3 hnc4
      (amountX * s.params.forceMultiplier) (amountY * s.params.forceMultiplier)
      (2 * m + 1) (le_refl _)
    refine ⟨?_, ?_, ?_⟩
    · rw [hout.2.2.1, if_pos (show m < 2 * m + 1 by omega)]
    · rw [hout.2.2.2.1, if_pos (show m < 2 * m + 1 by omega)]
    · rw [hout.2.2.2.2, if_pos (show m < 2 * m + 1 by omega)]

/-- Witness for the amended C7: on the concrete N = 10 state with radius 2
and center (5, 5), the far cell (0, 0) is unchanged in all three fields
and the center receives exactly the full contributions. -/
theorem addForce_locality_witness :
    ((addForce cexC7 (fun t => t / 2) 100 100 0 0 1 1).u (IX 10 0 0) =
      cexC7.u (IX 10 0 0) ∧
     (addForce cexC7 (fun t => t / 2) 100 100 0 0 1 1).density (IX 10 0 0) =
      cexC7.density (IX 10 0 0)) ∧
    ((addForce cexC7 (fun t => t / 2) 100 100 0 0 1 1).u (IX 10 5 5) =
      cexC7.u (IX 10 5 5) + 1 * cexC7.params.forceMultiplier ∧
     (addForce cexC7 (fun t => t / 2) 100 100 0 0 1 1).density (IX 10 5 5) =
      cexC7.density (IX 10 5 5) + 100) := by
  have h := addForce_locality cexC7 (fun t => t / 2) 100 100 0 0 1 1 2 (by norm_num)
    (by decide)
    (by intro t ht; push_cast; constructor <;> intro h2 <;> linarith)
    (by norm_num)
    5 5 (by decide) (by decide) (by decide) (by decide)
  have hfar := h.1 0 0 (by decide) (by decide) (by push_cast; norm_num)
  have hcen := h.2 (by decide) (by decide) (by decide) (by decide)
  exact ⟨⟨hfar.1, hfar.2.2⟩, ⟨hcen.1, hcen.2.2⟩⟩

set_option maxHeartbeats 2000000 in
/-- Counterexample to Claim C7 as stated: with radius 1 and a pointer
position mapping to the off-grid center (-5, 5) — which the claim says is
handled by clamping with no effect beyond the radius — the cell (0, 5)
sits at Euclidean distance 5 > 1 from the center yet its u value changes
(the clamp folds the whole disc onto the x = 0 border column).  `mySq`
agrees with the real square root on every value this call compares or
uses. -/
theorem addForce_nonlocal_offgrid_center :
    gridCoord 100 (-100) cexC7r1.size = -5 ∧
    cexC7r1.params.forceRadius = 1 ∧
    (1 : ℚ) * 1 < ((0 : ℚ) - (-5)) ^ 2 + ((5 : ℚ) - 5) ^ 2 ∧
    (addForce cexC7r1 mySq 100 100 (-100) 5 1 0).u (IX 10 0 5) ≠ cexC7r1.u (IX 10 0 5) := by
  decide

set_option maxHeartbeats 2000000 in
/-- The integer-radius hypothesis of the locality theorem is substantive:
a fractional force radius defeats locality even for an in-grid center.
With radius 6/5 and center cell (5, 5), the loop offset (-1/5, -1/5)
passes the disc test (distance² = 2/25 ≤ (6/5)²), and its clamped write
coordinates 24/5 floor to cell (4, 4), whose squared Euclidean distance 2
from the center exceeds (6/5)² = 36/25 — yet its u value changes. -/
theorem addForce_nonlocal_fractional_radius :
    gridCoord 100 0 cexC7frac.size = 5 ∧
    cexC7frac.params.forceRadius = 6/5 ∧
    (6/5 : ℚ) * (6/5) < ((4 : ℚ) - 5) ^ 2 + ((4 : ℚ) - 5) ^ 2 ∧
    (addForce cexC7frac mySq 100 100 0 0 1 0).u (IX 10 4 4) ≠ cexC7frac.u (IX 10 4 4) := by
  decide

end Stam
